import Mathlib

/-!
# Team Strategy Agent: task board, agent registry and chat

A shallow embedding of the client-side state engine of the repository:
`src/app/page.js` (the `Home` component, owner of the three state
collections), `src/components/TaskBoard.js`, `src/components/AgentPanel.js`
and `src/components/ChatInterface.js`.

React state updates of the form `setX(prev => f(prev))` are modelled by the
pure updater `f`; every handler below is named after the handler of the source
that installs it.  JavaScript strings are `String`, `===` on strings is
decidable equality, `Date.now()` is passed in as a natural number of
milliseconds.  Messages are JavaScript objects (`Json`); `JSON.parse` is a
parameter of the socket handler; a `setTimeout` call adds a pending `Timer`,
which appends its message when it runs.
-/

namespace TeamStrategyAgent

/-! ## Data model -/

/-- An entry of the `agents` state of `Home` (page.js, lines 12-18). -/
structure Agent where
  id : String
  name : String
  role : String
  active : Bool
  avatar : String
deriving DecidableEq, Repr

/-- The `newTask` form state of `TaskBoard` (TaskBoard.js, lines 8-15). -/
structure NewTask where
  title : String
  description : String
  priority : String
  assignedTo : String
  dueDate : String
  sprint : String
deriving DecidableEq, Repr

/-- A task object, with the keys of the literal built by `handleCreateTask`
(TaskBoard.js, lines 90-97) and of the `sampleTasks` entries. -/
structure Task where
  id : String
  title : String
  description : String
  status : String
  priority : String
  assignedTo : String
  assignedAgent : String
  createdBy : String
  dueDate : String
  sprint : String
  tags : List String
deriving DecidableEq, Repr

/-- A kanban column (TaskBoard.js, lines 17-22). -/
structure Column where
  id : String
  title : String
  color : String
deriving DecidableEq, Repr

/-- The state owned by `Home` (page.js, lines 11-19); the type of chat messages
is left as a parameter. -/
structure Home (Message : Type) where
  messages : List Message
  agents : List Agent
  tasks : List Task

/-! ## Constants of the source -/

/-- The initial `agents` state (page.js, lines 12-18). -/
def seedAgents : List Agent :=
  [ { id := "pm", name := "Product Manager", role := "PM Agent", active := true, avatar := "👨‍💼" },
    { id := "tech", name := "Tech Architect", role := "Technical Architect", active := true,
      avatar := "👨‍💻" },
    { id := "market", name := "Market Analyst", role := "Market Analyst", active := true,
      avatar := "📊" },
    { id := "pitch", name := "Pitch Writer", role := "Pitch Writer", active := true,
      avatar := "✍️" },
    { id := "sprint", name := "Sprint Planner", role := "Sprint Planner", active := true,
      avatar := "📋" } ]

/-- The four columns of the board (TaskBoard.js, lines 17-22). -/
def columns : List Column :=
  [ { id := "todo", title := "To Do", color := "bg-gray-100" },
    { id := "inprogress", title := "In Progress", color := "bg-blue-100" },
    { id := "review", title := "Review", color := "bg-yellow-100" },
    { id := "done", title := "Done", color := "bg-green-100" } ]

/-- The value `newTask` starts with and is reset to after a creation
(TaskBoard.js, lines 8-15 and 99-106). -/
def initialNewTask : NewTask :=
  { title := "", description := "", priority := "medium", assignedTo := "", dueDate := "",
    sprint := "current" }

/-- The demo tasks (TaskBoard.js, lines 31-84). -/
def sampleTasks : List Task :=
  [ { id := "1",
      title := "Market Research for AI Finance Tool",
      description := "Research competitors and market opportunities in AI finance space",
      status := "todo",
      priority := "high",
      assignedTo := "market",
      assignedAgent := "Market Analyst",
      createdBy := "PM Agent",
      dueDate := "2024-01-20",
      sprint := "current",
      tags := ["research", "finance", "ai"] },
    { id := "2",
      title := "Technical Architecture Design",
      description := "Design system architecture and choose tech stack",
      status := "inprogress",
      priority := "high",
      assignedTo := "tech",
      assignedAgent := "Tech Architect",
      createdBy := "PM Agent",
      dueDate := "2024-01-22",
      sprint := "current",
      tags := ["architecture", "backend"] },
    { id := "3",
      title := "User Persona Development",
      description := "Create detailed user personas for target audience",
      status := "review",
      priority := "medium",
      assignedTo := "pm",
      assignedAgent := "Product Manager",
      createdBy := "Market Analyst",
      dueDate := "2024-01-18",
      sprint := "current",
      tags := ["ux", "personas"] },
    { id := "4",
      title := "Pitch Deck Creation",
      description := "Create compelling pitch deck for stakeholders",
      status := "done",
      priority := "medium",
      assignedTo := "pitch",
      assignedAgent := "Pitch Writer",
      createdBy := "PM Agent",
      dueDate := "2024-01-15",
      sprint := "current",
      tags := ["presentation", "pitch"] } ]

/-! ## Task board operations (TaskBoard.js) -/

/-- The `assignedAgent` expression of line 94:
`agents.find(a => a.id === newTask.assignedTo)?.name || ''`. -/
def assignedAgentName (agents : List Agent) (assignedTo : String) : String :=
  match agents.find? (fun a => decide (a.id = assignedTo)) with
  | some a => a.name
  | none => ""

/-- The object literal `task` of `handleCreateTask` (lines 90-97): the id is the
decimal string of the clock reading, the form fields are spread in, and
`status`, `assignedAgent`, `createdBy`, `tags` are set after the spread. -/
def newTaskObject (now : Nat) (newTask : NewTask) (agents : List Agent) : Task :=
  { id := toString now,
    title := newTask.title,
    description := newTask.description,
    priority := newTask.priority,
    assignedTo := newTask.assignedTo,
    dueDate := newTask.dueDate,
    sprint := newTask.sprint,
    status := "todo",
    assignedAgent := assignedAgentName agents newTask.assignedTo,
    createdBy := "You",
    tags := [] }

/-- The store update of `handleCreateTask` (lines 88-98):
`setTasks(prev => [...prev, task])`.  The handler has no other branch; it then
resets the form to `initialNewTask` and hides it. -/
def handleCreateTask (now : Nat) (newTask : NewTask) (agents : List Agent)
    (prev : List Task) : List Task :=
  prev ++ [newTaskObject now newTask agents]

/-- The store update of `moveTask` (lines 110-114):
`prev.map(task => task.id === taskId ? { ...task, status: newStatus } : task)`. -/
def moveTask (taskId newStatus : String) (prev : List Task) : List Task :=
  prev.map (fun task => if task.id = taskId then { task with status := newStatus } else task)

/-- The `onDrop` handler of a task card rendered in `column` (lines 182-186):
`moveTask(draggedTaskId, column.id)`. -/
def onDrop (column : Column) (draggedTaskId : String) (prev : List Task) : List Task :=
  moveTask draggedTaskId column.id prev

/-- Line 86: `tasks.length > 0 ? tasks : sampleTasks`. -/
def currentTasks (tasks : List Task) : List Task :=
  if tasks.length > 0 then tasks else sampleTasks

/-- Lines 116-118: `currentTasks.filter(task => task.status === status)`. -/
def getTasksByStatus (tasks : List Task) (status : String) : List Task :=
  (currentTasks tasks).filter (fun task => decide (task.status = status))

/-! ## Agent registry operations (AgentPanel.js) -/

/-- The registry update of `toggleAgent` (AgentPanel.js, lines 9-15). -/
def toggleAgent (agentId : String) (prev : List Agent) : List Agent :=
  prev.map (fun agent => if agent.id = agentId then { agent with active := !agent.active } else agent)

/-- The effect of `toggleAgent` on the state of `Home`: `AgentPanel` receives
only `agents` and `setAgents` (page.js, lines 97-102), so only `agents` changes. -/
def Home.toggleAgent {Message : Type} (agentId : String) (h : Home Message) : Home Message :=
  { h with agents := TeamStrategyAgent.toggleAgent agentId h.agents }

/-! ## Runs of the task store -/

/-- A step that changes the task store: a form submission at clock reading
`now` with form contents `newTask` and registry `agents`, or a `moveTask` call. -/
inductive TaskAction where
  | create (now : Nat) (newTask : NewTask) (agents : List Agent)
  | move (taskId newStatus : String)
deriving DecidableEq, Repr

/-- The store after one step. -/
def TaskAction.apply : TaskAction → List Task → List Task
  | .create now newTask agents, prev => handleCreateTask now newTask agents prev
  | .move taskId newStatus, prev => moveTask taskId newStatus prev

/-- The store after a sequence of steps, oldest first. -/
def runTasks (acts : List TaskAction) (start : List Task) : List Task :=
  acts.foldl (fun store a => a.apply store) start

/-- The clock readings of the creations of a run, in order. -/
def creationTimes : List TaskAction → List Nat
  | [] => []
  | .create now _ _ :: rest => now :: creationTimes rest
  | .move _ _ :: rest => creationTimes rest

/-- The statuses that name a column: the ids of `columns`. -/
def validStatuses : List String := columns.map Column.id

/-- A step whose status argument, if any, is the id of a column, as is every
call `onDrop` makes. -/
def TaskAction.usesColumn : TaskAction → Bool
  | .create _ _ _ => true
  | .move _ newStatus => decide (newStatus ∈ validStatuses)

/-- The number a list of decimal digit characters denotes, most significant
digit first, continuing from the value `acc` already read. -/
def decimalValue (acc : Nat) (ds : List Char) : Nat :=
  ds.foldl (fun a c => 10 * a + (c.toNat - 48)) acc

/-- A filled-in creation form, used to evaluate the handlers. -/
def demoInput : NewTask :=
  { title := "Draft roadmap", description := "First milestone plan", priority := "high",
    assignedTo := "pm", dueDate := "2024-02-01", sprint := "current" }

/-- A store of two created tasks, used to evaluate the handlers. -/
def demoStore : List Task :=
  runTasks [.create 1705000000000 demoInput seedAgents,
            .create 1705000000001 { demoInput with title := "Pick stack", assignedTo := "tech" }
              seedAgents] []

/-! ## Assignee lookup (TaskBoard.js) -/

/-- The fallback string literal of line 122, as the source file spells it. -/
def placeholderGlyph : String := "ðŸ‘¤"

/-- Lines 120-123: `agents.find(a => a.id === agentId)` followed by
`agent?.avatar || placeholder`; the empty avatar is falsy. -/
def getAgentAvatar (agents : List Agent) (agentId : String) : String :=
  match agents.find? (fun a => decide (a.id = agentId)) with
  | some agent => if agent.avatar = "" then placeholderGlyph else agent.avatar
  | none => placeholderGlyph

/-! ## Chat messages (ChatInterface.js) -/

/-- A JavaScript value as the object literals of the source build it and as
`JSON.parse` returns it. Numbers are integers, which covers every number the
source builds (`Date.now()` plus a small offset); no handler reads a number of an
inbound frame. -/
inductive Json where
  | null
  | bool (b : Bool)
  | num (n : Int)
  | str (s : String)
  | arr (items : List Json)
  | obj (fields : List (String × Json))

/-- Reading the property `key` (a key of a message: `type`, `id`, `sender`, ...)
of a JavaScript value: on `null` the read throws a TypeError, an object yields the
value stored under the key or `undefined` (here `none`), and the other JSON values
have no such property. -/
def Json.prop (key : String) : Json → Except String (Option Json)
  | .null => .error "TypeError"
  | .obj fields => .ok ((fields.find? (fun kv => decide (kv.1 = key))).map Prod.snd)
  | _ => .ok none

/-- The `id` of a message when it is a number. -/
def Json.idNumber (m : Json) : Option Int :=
  match m.prop "id" with
  | .ok (some (.num n)) => some n
  | _ => none

/-- The characters `String.prototype.trim` strips: the WhiteSpace and
LineTerminator code points of ECMAScript. -/
def isJsWhiteSpace (c : Char) : Bool :=
  decide (c.toNat ∈ [9, 10, 11, 12, 13, 32, 160, 5760, 8232, 8233, 8239, 8287, 12288, 65279])
    || (decide (8192 ≤ c.toNat) && decide (c.toNat ≤ 8202))

/-- The method `trim` of a string: white space is dropped at both ends. -/
def jsTrim (s : String) : String :=
  ⟨((s.data.dropWhile isJsWhiteSpace).reverse.dropWhile isJsWhiteSpace).reverse⟩

/-- The clock as one call of `handleSendMessage` reads it, in source order:
`Date.now()` and `new Date().toISOString()` of the user message (lines 65, 68) and
of the three canned replies (lines 94-115), and the time at which the `setTimeout`
of the reply at each index is called (line 124). -/
structure SendClock where
  userNow : Nat
  userStamp : String
  pmNow : Nat
  pmStamp : String
  techNow : Nat
  techStamp : String
  marketNow : Nat
  marketStamp : String
  setAt : Nat → Nat

/-- A pending `setTimeout` callback of line 124-126: when it fires, `response` is
appended to the log. -/
structure Timer where
  setAt : Nat
  delay : Nat
  response : Json

/-- The time from which a timer may fire. -/
def Timer.due (t : Timer) : Nat := t.setAt + t.delay

/-- The state `ChatInterface` works on: the props `messages` and `agents`, the
local state `inputMessage` and `socket` (`none` for `null`, else the `readyState`
of the socket), the frames handed to `socket.send` (the objects given to
`JSON.stringify`, oldest first) and the pending timers (oldest first). -/
structure ChatState where
  messages : List Json
  agents : List Agent
  inputMessage : String
  socket : Option Nat
  sent : List Json
  timers : List Timer

/-- The constant `WebSocket.OPEN`. -/
def WebSocket.OPEN : Nat := 1

/-- The object literal `userMessage` (lines 64-70). -/
def userMessage (c : SendClock) (inputMessage : String) : Json :=
  .obj [("id", .num c.userNow), ("type", .str "user"), ("content", .str inputMessage),
        ("timestamp", .str c.userStamp), ("sender", .str "You")]

/-- The array literal `responses` of `simulateAgentResponses` (lines 92-120). -/
def responses (c : SendClock) (userInput : String) : List Json :=
  [ .obj [("id", .num (c.pmNow + 1)), ("type", .str "agent"),
          ("content", .str ("I\x27ll help break down \x22" ++ userInput ++
            "\x22 into actionable components. Let me analyze the requirements and create a structured plan.")),
          ("timestamp", .str c.pmStamp), ("sender", .str "Product Manager"),
          ("agentId", .str "pm"), ("avatar", .str "👨‍💼")],
    .obj [("id", .num (c.techNow + 2)), ("type", .str "agent"),
          ("content", .str ("From a technical perspective, I recommend we start with a modern tech stack. " ++
            "I\x27ll outline the architecture and suggest the best frameworks for this project.")),
          ("timestamp", .str c.techStamp), ("sender", .str "Tech Architect"),
          ("agentId", .str "tech"), ("avatar", .str "👨‍💻")],
    .obj [("id", .num (c.marketNow + 3)), ("type", .str "agent"),
          ("content", .str ("I\x27ll research the competitive landscape and market opportunities. " ++
            "Let me gather data on similar solutions and identify gaps we can fill.")),
          ("timestamp", .str c.marketStamp), ("sender", .str "Market Analyst"),
          ("agentId", .str "market"), ("avatar", .str "📊")] ]

/-- The timers `simulateAgentResponses(userInput)` sets (lines 90-128): one per
entry of `responses`, with delay `(index + 1) * 1500`. -/
def simulateAgentResponses (c : SendClock) (userInput : String) : List Timer :=
  (responses c userInput).enum.map
    (fun (p : Nat × Json) => { setAt := c.setAt p.1, delay := (p.1 + 1) * 1500, response := p.2 })

/-- The object given to `JSON.stringify` on the connected path (lines 76-80). -/
def outboundFrame (inputMessage : String) (agents : List Agent) : Json :=
  .obj [("type", .str "user_message"), ("message", .str inputMessage),
        ("agents", .arr (((agents.filter (fun a => a.active)).map (fun a => a.id)).map .str))]

/-- The test of line 75: `socket && socket.readyState === WebSocket.OPEN`. -/
def socketOpen (socket : Option Nat) : Bool :=
  match socket with
  | some readyState => decide (readyState = WebSocket.OPEN)
  | none => false

/-- The handler `handleSendMessage` (lines 60-88). -/
def handleSendMessage (c : SendClock) (st : ChatState) : ChatState :=
  if jsTrim st.inputMessage = "" then st
  else
    let appended := st.messages ++ [userMessage c st.inputMessage]
    if socketOpen st.socket then
      { st with messages := appended,
                sent := st.sent ++ [outboundFrame st.inputMessage st.agents],
                inputMessage := "" }
    else
      { st with messages := appended,
                timers := st.timers ++ simulateAgentResponses c st.inputMessage,
                inputMessage := "" }

/-- The `try` block of `newSocket.onmessage` (lines 37-40), which throws when
`JSON.parse` does (`parse` gives `none`) or when the parsed value is `null`. -/
def onmessageTry (parse : String → Option Json) (data : String) (prev : List Json) :
    Except String (List Json) :=
  match parse data with
  | none => .error "SyntaxError"
  | some response =>
    match response.prop "type" with
    | .error e => .error e
    | .ok (some (.str t)) => if t = "agent" then .ok (prev ++ [response]) else .ok prev
    | .ok _ => .ok prev

/-- The handler `newSocket.onmessage` (lines 35-44): the `catch` logs the error
and leaves the log as it was. -/
def onmessage (parse : String → Option Json) (data : String) (prev : List Json) : List Json :=
  match onmessageTry parse data prev with
  | .ok log => log
  | .error _ => prev

/-- The callback of the pending timer at position `i` runs (line 125). -/
def fireTimer (i : Nat) (st : ChatState) : ChatState :=
  match st.timers[i]? with
  | some t => { st with messages := st.messages ++ [t.response], timers := st.timers.eraseIdx i }
  | none => st

/-- The least due time among `t` and the timers `ts`. -/
def leastDue (t : Timer) (ts : List Timer) : Nat :=
  ts.foldl (fun m x => min m x.due) t.due

/-- The timer that is due first runs, the oldest one among those due at the same
time. -/
def fireNext (st : ChatState) : ChatState :=
  match st.timers with
  | [] => st
  | t :: ts => fireTimer ((t :: ts).findIdx (fun x => decide (x.due = leastDue t ts))) st

/-- An event `ChatInterface` reacts to. -/
inductive ChatEvent where
  | typed (text : String)
  | submit (c : SendClock)
  | timer (i : Nat)
  | frame (data : String)
  | socketState (socket : Option Nat)
  | registry (agents : List Agent)

/-- The state after one event; `parse` stands for `JSON.parse`. -/
def ChatEvent.apply (parse : String → Option Json) : ChatEvent → ChatState → ChatState
  | .typed text, st => { st with inputMessage := text }
  | .submit c, st => handleSendMessage c st
  | .timer i, st => fireTimer i st
  | .frame data, st => { st with messages := onmessage parse data st.messages }
  | .socketState socket, st => { st with socket := socket }
  | .registry agents, st => { st with agents := agents }

/-- The state after a sequence of events, oldest first. -/
def runChat (parse : String → Option Json) (events : List ChatEvent) (st : ChatState) :
    ChatState :=
  events.foldl (fun s e => e.apply parse s) st

/-- One submission of `text` followed by the three timers running in the order
they are due. -/
def chatRound (c : SendClock) (text : String) (st : ChatState) : ChatState :=
  fireNext (fireNext (fireNext (handleSendMessage c { st with inputMessage := text })))

/-- Rounds played one after the other, oldest first. -/
def runRounds (rounds : List (SendClock × String)) (st : ChatState) : ChatState :=
  rounds.foldl (fun s r => chatRound r.1 r.2 s) st

/-- The state `ChatInterface` starts in when the socket is not open: empty log,
the seeded registry, nothing typed, nothing sent, no timer. -/
def initialChat : ChatState :=
  { messages := [], agents := seedAgents, inputMessage := "", socket := none, sent := [],
    timers := [] }

/-- A decimal numeral padded with zeros on the left up to `width` digits. -/
def padZeros (width n : Nat) : String :=
  String.mk (List.replicate (width - (toString n).length) '0') ++ toString n

/-- The method `toISOString` of the `Date` that is `ms` milliseconds after the
epoch (UTC, proleptic Gregorian calendar), for the years 1970 to 9999. -/
def toISOString (ms : Nat) : String :=
  let days := ms / 86400000
  let rest := ms % 86400000
  let z := days + 719468
  let era := z / 146097
  let doe := z % 146097
  let yoe := (doe - doe / 1460 + doe / 36524 - doe / 146096) / 365
  let doy := doe - (365 * yoe + yoe / 4 - yoe / 100)
  let mp := (5 * doy + 2) / 153
  let day := doy - (153 * mp + 2) / 5 + 1
  let month := if mp < 10 then mp + 3 else mp - 9
  let year := yoe + era * 400 + (if month ≤ 2 then 1 else 0)
  padZeros 4 year ++ "-" ++ padZeros 2 month ++ "-" ++ padZeros 2 day ++ "T" ++
    padZeros 2 (rest / 3600000) ++ ":" ++ padZeros 2 (rest % 3600000 / 60000) ++ ":" ++
    padZeros 2 (rest % 60000 / 1000) ++ "." ++ padZeros 3 (rest % 1000) ++ "Z"

/-- A clock for one submission: every reading within the same millisecond `now`,
every timestamp the ISO string of that reading. -/
def demoClock (now : Nat) : SendClock :=
  { userNow := now, userStamp := toISOString now,
    pmNow := now, pmStamp := toISOString now,
    techNow := now, techStamp := toISOString now,
    marketNow := now, marketStamp := toISOString now,
    setAt := fun _ => now }

/-- The message `m` is an agent message of the agent `agentId`, and its sender
and avatar are the name and avatar of the agent of `registry` with that id. -/
def taggedAs (registry : List Agent) (agentId : String) (m : Json) : Prop :=
  m.prop "type" = .ok (some (.str "agent")) ∧
  m.prop "agentId" = .ok (some (.str agentId)) ∧
  ∃ a, registry.find? (fun a => decide (a.id = agentId)) = some a ∧
    m.prop "sender" = .ok (some (.str a.name)) ∧
    m.prop "avatar" = .ok (some (.str a.avatar))

/-- The text of an inbound frame of type "agent", used to evaluate `onmessage`. -/
def demoFrameText : String :=
  "\x7b\x22type\x22:\x22agent\x22,\x22content\x22:\x22On it\x22,\x22sender\x22:\x22Pitch Writer\x22\x7d"

/-- What `JSON.parse` returns on `demoFrameText`. -/
def demoFrame : Json :=
  .obj [("type", .str "agent"), ("content", .str "On it"), ("sender", .str "Pitch Writer")]

/-- A parse function used to evaluate `onmessage`: `JSON.parse` on the two texts
`demoFrameText` and `null`, and a syntax error on the third text used. -/
def demoParse (data : String) : Option Json :=
  if data = demoFrameText then some demoFrame
  else if data = "null" then some .null
  else none

/-- The readings of one submission do not go back in time. -/
def clockOrdered (c : SendClock) : Prop :=
  c.userNow ≤ c.pmNow ∧ c.pmNow ≤ c.techNow ∧ c.techNow ≤ c.marketNow ∧
    c.setAt 0 ≤ c.setAt 1 ∧ c.setAt 1 ≤ c.setAt 2

/-- Rounds whose texts are not blank, whose clocks do not go back, the first not
before `since`, and each later one more than 3 ms after the last reading of the
round before it. -/
def roundsSpaced : Nat → List (SendClock × String) → Prop
  | _, [] => True
  | since, (c, text) :: rest =>
    since ≤ c.userNow ∧ clockOrdered c ∧ jsTrim text ≠ "" ∧ roundsSpaced (c.marketNow + 4) rest

/-! ## The creation form (TaskBoard.js, lines 252-344) -/

/-- The values the assignee select can hold: the empty value of the option
"Select agent..." (line 306) and the id of each active agent (lines 307-311). -/
def assigneeOptions (agents : List Agent) : List String :=
  "" :: (agents.filter (fun a => a.active)).map (fun agent => agent.id)

/-- The values the priority select can hold (lines 291-293). -/
def priorityOptions : List String := ["low", "medium", "high"]

/-- The `required` attributes of the title input (line 267) and of the assignee
select (line 304): the browser validates the form before it fires `submit`, and it
does not fire it while the title is empty or the select holds the empty value. -/
def requiredFilled (newTask : NewTask) : Bool :=
  decide (newTask.title ≠ "") && decide (newTask.assignedTo ≠ "")

/-- The state `TaskBoard` works on while it is mounted: the prop `tasks` and the
local state `newTask` and `showNewTaskForm` (lines 6-15). -/
structure TaskBoardState where
  tasks : List Task
  newTask : NewTask
  showNewTaskForm : Bool

/-- The state of `TaskBoard` when it is mounted on the store `tasks`. -/
def mountBoard (tasks : List Task) : TaskBoardState :=
  { tasks := tasks, newTask := initialNewTask, showNewTaskForm := false }

/-- The button "Create Task" is pressed at clock reading `now`: the form
`onSubmit={handleCreateTask}` (line 257) is on the page only while
`showNewTaskForm` holds, and the handler runs only when the `required` fields are
filled; it then appends the task, resets the form and hides it (lines 88-108). -/
def submitForm (now : Nat) (agents : List Agent) (st : TaskBoardState) : TaskBoardState :=
  if st.showNewTaskForm && requiredFilled st.newTask then
    { tasks := handleCreateTask now st.newTask agents st.tasks,
      newTask := initialNewTask,
      showNewTaskForm := false }
  else st

/-- What the user can do on a mounted `TaskBoard`: open the form (line 139), cancel
it (line 329), edit a field (lines 265, 276, 288, 302, 322), press "Create Task",
drop a dragged card on a card of `column` (lines 182-186). -/
inductive BoardEvent where
  | openForm
  | cancel
  | changeTitle (value : String)
  | changeDescription (value : String)
  | changePriority (value : String)
  | changeAssignedTo (value : String)
  | changeDueDate (value : String)
  | submit (now : Nat)
  | drop (column : Column) (draggedTaskId : String)

/-- The state after one event. The registry `agents` is fixed while `TaskBoard` is
mounted (only `AgentPanel`, on another tab, changes it, and `Home` renders one tab
at a time: page.js, lines 90-109). A field can be edited only while the form is
shown, and a select only yields the value of one of its options. -/
def BoardEvent.apply (agents : List Agent) : BoardEvent → TaskBoardState → TaskBoardState
  | .openForm, st => { st with showNewTaskForm := true }
  | .cancel, st => { st with showNewTaskForm := false }
  | .changeTitle value, st =>
    if st.showNewTaskForm then { st with newTask := { st.newTask with title := value } } else st
  | .changeDescription value, st =>
    if st.showNewTaskForm then { st with newTask := { st.newTask with description := value } }
    else st
  | .changePriority value, st =>
    if st.showNewTaskForm && decide (value ∈ priorityOptions) then
      { st with newTask := { st.newTask with priority := value } }
    else st
  | .changeAssignedTo value, st =>
    if st.showNewTaskForm && decide (value ∈ assigneeOptions agents) then
      { st with newTask := { st.newTask with assignedTo := value } }
    else st
  | .changeDueDate value, st =>
    if st.showNewTaskForm then { st with newTask := { st.newTask with dueDate := value } } else st
  | .submit now, st => submitForm now agents st
  | .drop column draggedTaskId, st =>
    if decide (column ∈ columns) then { st with tasks := onDrop column draggedTaskId st.tasks }
    else st

/-- The state after a sequence of events, oldest first. -/
def runBoard (agents : List Agent) (events : List BoardEvent) (st : TaskBoardState) :
    TaskBoardState :=
  events.foldl (fun s e => e.apply agents s) st

/-- The messages of the log followed by the replies that wait on a timer. -/
def ChatState.allMessages (st : ChatState) : List Json :=
  st.messages ++ st.timers.map Timer.response

/-- Every message of `l` has a number below `bound` as id. -/
def idsBelow (bound : Nat) (l : List Json) : Prop :=
  ∀ m ∈ l, ∃ n : Int, m.idNumber = some n ∧ n < (bound : Int)

/-- Events without inbound frames in which the id readings of each submission do
not go back, the first submission is not read before `since`, and each later one is
read more than 3 ms after the last id reading of the submission before it. -/
def eventsSpaced : Nat → List ChatEvent → Prop
  | _, [] => True
  | since, .submit c :: rest =>
    since ≤ c.userNow ∧ c.userNow ≤ c.pmNow ∧ c.pmNow ≤ c.techNow ∧ c.techNow ≤ c.marketNow ∧
      eventsSpaced (c.marketNow + 4) rest
  | _, .frame _ :: _ => False
  | since, .typed _ :: rest => eventsSpaced since rest
  | since, .timer _ :: rest => eventsSpaced since rest
  | since, .socketState _ :: rest => eventsSpaced since rest
  | since, .registry _ :: rest => eventsSpaced since rest

/-! ## Auxiliary lemmas -/

theorem digitChar_value (k : Nat) (hk : k < 10) : (Nat.digitChar k).toNat - 48 = k := by
  interval_cases k <;> rfl

theorem toDigitsCore_value (fuel : Nat) :
    ∀ (n : Nat) (ds : List Char), n < fuel →
      decimalValue 0 (Nat.toDigitsCore 10 fuel n ds) = decimalValue n ds := by
  induction fuel with
  | zero => intro n ds h; omega
  | succ fuel ih =>
    intro n ds h
    have hd : (Nat.digitChar (n % 10)).toNat - 48 = n % 10 :=
      digitChar_value (n % 10) (Nat.mod_lt n (by decide))
    unfold Nat.toDigitsCore
    by_cases h0 : n / 10 = 0
    · simp only [h0, if_true]
      have hn : n % 10 = n := Nat.mod_eq_of_lt (by omega)
      simp only [decimalValue, List.foldl_cons, Nat.mul_zero, Nat.zero_add, hd]
      rw [hn]
    · simp only [h0, if_false]
      rw [ih (n / 10) _ (by omega)]
      have hn : 10 * (n / 10) + n % 10 = n := Nat.div_add_mod n 10
      simp only [decimalValue, List.foldl_cons, hd, hn]

theorem toString_nat_injective (a b : Nat) (h : toString a = toString b) : a = b := by
  have h1 : Nat.toDigits 10 a = Nat.toDigits 10 b := by
    have := congrArg String.data h
    simpa [toString, Nat.repr, List.asString] using this
  have ha := toDigitsCore_value (a + 1) a [] (Nat.lt_succ_self a)
  have hb := toDigitsCore_value (b + 1) b [] (Nat.lt_succ_self b)
  unfold Nat.toDigits at h1
  rw [h1, hb] at ha
  simpa [decimalValue] using ha.symm

theorem moveTask_map_id (taskId newStatus : String) (prev : List Task) :
    (moveTask taskId newStatus prev).map Task.id = prev.map Task.id := by
  unfold moveTask
  rw [List.map_map]
  apply List.map_congr_left
  intro t _
  by_cases h : t.id = taskId <;> simp [h]

theorem runTasks_cons (a : TaskAction) (acts : List TaskAction) (start : List Task) :
    runTasks (a :: acts) start = runTasks acts (a.apply start) := rfl

theorem runTasks_map_id (acts : List TaskAction) :
    ∀ start : List Task,
      (runTasks acts start).map Task.id
        = start.map Task.id ++ (creationTimes acts).map toString := by
  induction acts with
  | nil => intro start; simp [runTasks, creationTimes]
  | cons a acts ih =>
    intro start
    rw [runTasks_cons, ih]
    cases a with
    | create now newTask agents =>
      simp [TaskAction.apply, handleCreateTask, newTaskObject, creationTimes]
    | move taskId newStatus =>
      simp [TaskAction.apply, moveTask_map_id, creationTimes]

theorem currentTasks_of_ne_nil (tasks : List Task) (h : tasks ≠ []) :
    currentTasks tasks = tasks := by
  cases tasks with
  | nil => exact absurd rfl h
  | cons t ts => simp [currentTasks]

theorem moveTask_length (taskId newStatus : String) (prev : List Task) :
    (moveTask taskId newStatus prev).length = prev.length := by
  simp [moveTask]

theorem mem_moveTask_iff (taskId newStatus : String) (prev : List Task) (u : Task) :
    u ∈ moveTask taskId newStatus prev ↔
      ∃ t ∈ prev, (if t.id = taskId then { t with status := newStatus } else t) = u := by
  simp [moveTask]

theorem moveTask_getElem? (taskId newStatus : String) (prev : List Task) (i : Nat) :
    (moveTask taskId newStatus prev)[i]? =
      (prev[i]?).map
        (fun t => if t.id = taskId then { t with status := newStatus } else t) := by
  simp [moveTask]

theorem newTaskObject_status_valid (now : Nat) (newTask : NewTask) (agents : List Agent) :
    (newTaskObject now newTask agents).status ∈ validStatuses := by
  simp [newTaskObject, validStatuses, columns]

theorem apply_preserves_statuses (a : TaskAction) (store : List Task)
    (ha : a.usesColumn = true) (hstore : ∀ t ∈ store, t.status ∈ validStatuses) :
    ∀ t ∈ a.apply store, t.status ∈ validStatuses := by
  cases a with
  | create now newTask agents =>
    intro t ht
    simp only [TaskAction.apply, handleCreateTask, List.mem_append, List.mem_singleton] at ht
    rcases ht with ht | ht
    · exact hstore t ht
    · rw [ht]; exact newTaskObject_status_valid now newTask agents
  | move taskId newStatus =>
    intro t ht
    simp only [TaskAction.apply] at ht
    rw [mem_moveTask_iff] at ht
    obtain ⟨u, hu, hut⟩ := ht
    by_cases hid : u.id = taskId
    · rw [if_pos hid] at hut
      subst hut
      simpa [TaskAction.usesColumn] using ha
    · rw [if_neg hid] at hut
      subst hut
      exact hstore u hu

theorem runTasks_preserves_statuses (acts : List TaskAction) :
    ∀ start : List Task, (∀ a ∈ acts, a.usesColumn = true) →
      (∀ t ∈ start, t.status ∈ validStatuses) →
      ∀ t ∈ runTasks acts start, t.status ∈ validStatuses := by
  induction acts with
  | nil => intro start _ hstart; simpa [runTasks] using hstart
  | cons a acts ih =>
    intro start hacts hstart
    rw [runTasks_cons]
    exact ih (a.apply start) (fun b hb => hacts b (List.mem_cons_of_mem a hb))
      (apply_preserves_statuses a start (hacts a (List.mem_cons_self a acts)) hstart)

theorem filter_by_status_perm (l : List Task) (h : ∀ t ∈ l, t.status ∈ validStatuses) :
    (l.filter (fun t => decide (t.status = "todo")) ++
      (l.filter (fun t => decide (t.status = "inprogress")) ++
        (l.filter (fun t => decide (t.status = "review")) ++
          l.filter (fun t => decide (t.status = "done"))))).Perm l := by
  induction l with
  | nil => simp
  | cons t l ih =>
    have ih := ih (fun u hu => h u (List.mem_cons_of_mem t hu))
    have ht := h t (List.mem_cons_self t l)
    simp only [validStatuses, columns, List.map_cons, List.map_nil, List.mem_cons,
      List.mem_singleton, List.not_mem_nil, or_false] at ht
    rcases ht with hs | hs | hs | hs
    · simp only [List.filter_cons, hs]
      simp only [decide_True, if_true, String.reduceEq, decide_False, Bool.false_eq_true,
        if_false, List.cons_append]
      exact List.Perm.cons t ih
    · simp only [List.filter_cons, hs]
      simp only [decide_True, if_true, String.reduceEq, decide_False, Bool.false_eq_true,
        if_false, List.cons_append]
      exact List.perm_middle.trans (List.Perm.cons t ih)
    · simp only [List.filter_cons, hs]
      simp only [decide_True, if_true, String.reduceEq, decide_False, Bool.false_eq_true,
        if_false, List.cons_append]
      rw [← List.append_assoc]
      refine List.perm_middle.trans (List.Perm.cons t ?_)
      rw [List.append_assoc]
      exact ih
    · simp only [List.filter_cons, hs]
      simp only [decide_True, if_true, String.reduceEq, decide_False, Bool.false_eq_true,
        if_false, List.cons_append]
      rw [← List.append_assoc, ← List.append_assoc]
      refine List.perm_middle.trans (List.Perm.cons t ?_)
      rw [List.append_assoc, List.append_assoc]
      exact ih

theorem moveTask_erase_status (taskId newStatus : String) (prev : List Task) :
    (moveTask taskId newStatus prev).map (fun t => { t with status := "" })
      = prev.map (fun t => { t with status := "" }) := by
  unfold moveTask
  rw [List.map_map]
  apply List.map_congr_left
  intro t _
  by_cases h : t.id = taskId <;> simp [h]

theorem toggleAgent_getElem? (agentId : String) (prev : List Agent) (i : Nat) :
    (toggleAgent agentId prev)[i]? =
      (prev[i]?).map
        (fun a => if a.id = agentId then { a with active := !a.active } else a) := by
  simp [toggleAgent]

theorem toggleAgent_involutive (agentId : String) (prev : List Agent) :
    toggleAgent agentId (toggleAgent agentId prev) = prev := by
  unfold toggleAgent
  rw [List.map_map]
  conv_rhs => rw [← List.map_id prev]
  apply List.map_congr_left
  intro a _
  cases a with
  | mk id name role active avatar =>
    by_cases h : id = agentId <;> simp [h]

theorem apply_keeps_assignee (agents : List Agent) (e : BoardEvent) (st : TaskBoardState)
    (h : st.newTask.assignedTo ∈ assigneeOptions agents) :
    (e.apply agents st).newTask.assignedTo ∈ assigneeOptions agents := by
  have hinit : initialNewTask.assignedTo ∈ assigneeOptions agents := by
    simp [initialNewTask, assigneeOptions]
  cases e with
  | openForm => exact h
  | cancel => exact h
  | changeTitle value =>
    simp only [BoardEvent.apply]
    split <;> exact h
  | changeDescription value =>
    simp only [BoardEvent.apply]
    split <;> exact h
  | changePriority value =>
    simp only [BoardEvent.apply]
    split <;> exact h
  | changeAssignedTo value =>
    simp only [BoardEvent.apply]
    split
    · rename_i hc
      simp only [Bool.and_eq_true, decide_eq_true_eq] at hc
      exact hc.2
    · exact h
  | changeDueDate value =>
    simp only [BoardEvent.apply]
    split <;> exact h
  | submit now =>
    simp only [BoardEvent.apply, submitForm]
    split
    · exact hinit
    · exact h
  | drop column draggedTaskId =>
    simp only [BoardEvent.apply]
    split <;> exact h

theorem runBoard_assignee (agents : List Agent) (events : List BoardEvent) :
    ∀ st : TaskBoardState, st.newTask.assignedTo ∈ assigneeOptions agents →
      (runBoard agents events st).newTask.assignedTo ∈ assigneeOptions agents := by
  induction events with
  | nil => intro st h; exact h
  | cons e events ih =>
    intro st h
    exact ih (e.apply agents st) (apply_keeps_assignee agents e st h)

theorem toISOString_demo : toISOString 1705000000000 = "2024-01-11T19:06:40.000Z" := by
  decide

/-! ## Task creation -/

/-- C1: for every task store and every creation input, `handleCreateTask` leaves
every earlier task unchanged and in place and appends exactly one new task at the
end of the store, whose status is "todo", whose tags are empty, whose createdBy is
"You", and whose title, description, priority, assignedTo and dueDate are those of
the input. -/
theorem handleCreateTask_appends_one (now : Nat) (newTask : NewTask) (agents : List Agent)
    (prev : List Task) :
    ∃ t : Task,
      handleCreateTask now newTask agents prev = prev ++ [t] ∧
      (handleCreateTask now newTask agents prev).length = prev.length + 1 ∧
      (handleCreateTask now newTask agents prev).take prev.length = prev ∧
      (handleCreateTask now newTask agents prev).getLast? = some t ∧
      t.status = "todo" ∧ t.tags = [] ∧ t.createdBy = "You" ∧
      t.title = newTask.title ∧ t.description = newTask.description ∧
      t.priority = newTask.priority ∧ t.assignedTo = newTask.assignedTo ∧
      t.dueDate = newTask.dueDate := by
  refine ⟨newTaskObject now newTask agents, rfl, ?_, ?_, ?_, rfl, rfl, rfl, rfl, rfl, rfl, rfl, rfl⟩
  · simp [handleCreateTask]
  · simp [handleCreateTask]
  · simp [handleCreateTask]

/-- C2: on a mounted task board, after any sequence of user events, pressing
"Create Task" is rejected, nothing of the state changing and the store with it,
whenever the title is empty or the assignee does not name an agent of the
registry; the store changes only when the title is not empty and the assignee is
the id of an agent of the registry (an active one), and then exactly by the append
of `handleCreateTask`. The rejection is the one of the `required` fields. -/
theorem createTask_validation (agents : List Agent) (tasks : List Task)
    (events : List BoardEvent) (now : Nat) (st : TaskBoardState)
    (hst : st = runBoard agents events (mountBoard tasks)) :
    ((st.newTask.title = "" ∨ ∀ a ∈ agents, a.id ≠ st.newTask.assignedTo) →
      submitForm now agents st = st) ∧
    ((submitForm now agents st).tasks ≠ st.tasks →
      st.newTask.title ≠ "" ∧
      (∃ a ∈ agents, a.id = st.newTask.assignedTo ∧ a.active = true) ∧
      (submitForm now agents st).tasks = handleCreateTask now st.newTask agents st.tasks) := by
  have hopt : st.newTask.assignedTo ∈ assigneeOptions agents := by
    rw [hst]
    exact runBoard_assignee agents events (mountBoard tasks) (by simp [mountBoard, initialNewTask, assigneeOptions])
  have hknown : st.newTask.assignedTo ≠ "" →
      ∃ a ∈ agents, a.id = st.newTask.assignedTo ∧ a.active = true := by
    intro hne
    simp only [assigneeOptions, List.mem_cons, List.mem_map, List.mem_filter] at hopt
    rcases hopt with h | ⟨a, ⟨ha, hact⟩, hid⟩
    · exact absurd h hne
    · exact ⟨a, ha, hid, hact⟩
  constructor
  · intro h
    have hreq : requiredFilled st.newTask = false := by
      rcases h with h | h
      · simp [requiredFilled, h]
      · have : st.newTask.assignedTo = "" := by
          by_contra hne
          obtain ⟨a, ha, hid, _⟩ := hknown hne
          exact h a ha hid
        simp [requiredFilled, this]
    simp [submitForm, hreq]
  · intro hchanged
    have hreq : (st.showNewTaskForm && requiredFilled st.newTask) = true := by
      by_contra hno
      have hfalse : (st.showNewTaskForm && requiredFilled st.newTask) = false := by
        simpa using hno
      exact hchanged (by simp [submitForm, hfalse])
    have hfilled : requiredFilled st.newTask = true := by
      simp only [Bool.and_eq_true] at hreq
      exact hreq.2
    simp only [requiredFilled, Bool.and_eq_true, decide_eq_true_eq] at hfilled
    refine ⟨hfilled.1, hknown hfilled.2, ?_⟩
    simp [submitForm, hreq]

/-- Evaluation of `createTask_validation`: the form is opened and submitted with
only a description typed, then filled in and submitted. -/
theorem createTask_validation_witness :
    submitForm 1705000000000 seedAgents
        (runBoard seedAgents [.openForm, .changeDescription "First milestone plan"]
          (mountBoard []))
      = runBoard seedAgents [.openForm, .changeDescription "First milestone plan"]
          (mountBoard []) ∧
    (submitForm 1705000000000 seedAgents
        (runBoard seedAgents
          [.openForm, .changeTitle "Draft roadmap", .changeAssignedTo "pm"]
          (mountBoard []))).tasks
      = handleCreateTask 1705000000000
          { initialNewTask with title := "Draft roadmap", assignedTo := "pm" } seedAgents [] :=
  ⟨(createTask_validation seedAgents [] [.openForm, .changeDescription "First milestone plan"]
      1705000000000 _ rfl).1 (Or.inl rfl),
   ((createTask_validation seedAgents []
      [.openForm, .changeTitle "Draft roadmap", .changeAssignedTo "pm"]
      1705000000000 _ rfl).2 (by decide)).2.2⟩

/-- C3, as stated, fails: two creations at the same clock reading give two tasks
with the same id. -/
theorem same_millisecond_same_id :
    ¬ ((runTasks [.create 1705000000000 demoInput seedAgents,
                  .create 1705000000000 demoInput seedAgents] []).map Task.id).Nodup := by
  rw [runTasks_map_id]
  simp [creationTimes]

/-- C3, amended: in every run of creations and moves from the empty store whose
creations happen at pairwise distinct clock readings, the ids of the tasks in the
store are pairwise distinct, and a creation at a reading no earlier creation used
gets an id distinct from the id of every task already in the store; two creations
at the same clock reading get the same id. -/
theorem created_ids_distinct (acts : List TaskAction) (h : (creationTimes acts).Nodup) :
    ((runTasks acts []).map Task.id).Nodup ∧
    (∀ (now : Nat) (newTask : NewTask) (agents : List Agent), now ∉ creationTimes acts →
      ∀ t ∈ runTasks acts [], t.id ≠ (newTaskObject now newTask agents).id) ∧
    (∀ (now : Nat) (first second : NewTask) (agents registry : List Agent),
      (newTaskObject now first agents).id = (newTaskObject now second registry).id) := by
  have hids := runTasks_map_id acts []
  simp only [List.map_nil, List.nil_append] at hids
  refine ⟨?_, ?_, fun _ _ _ _ _ => rfl⟩
  · rw [hids]
    exact h.map (fun a b hab => toString_nat_injective a b hab)
  · intro now newTask agents hnow t ht heq
    have hmem : t.id ∈ (runTasks acts []).map Task.id := List.mem_map_of_mem _ ht
    rw [hids, List.mem_map] at hmem
    obtain ⟨m, hm, hmt⟩ := hmem
    have : m = now := toString_nat_injective m now (by rw [hmt, heq]; rfl)
    exact hnow (this ▸ hm)

/-- Evaluation of `created_ids_distinct` on two creations one millisecond apart. -/
theorem created_ids_distinct_witness :
    (creationTimes [.create 1705000000000 demoInput seedAgents,
                    .create 1705000000001 demoInput seedAgents]).Nodup ∧
    ((runTasks [.create 1705000000000 demoInput seedAgents,
                .create 1705000000001 demoInput seedAgents] []).map Task.id).Nodup :=
  ⟨by decide,
   (created_ids_distinct [.create 1705000000000 demoInput seedAgents,
                          .create 1705000000001 demoInput seedAgents] (by decide)).1⟩

/-! ## Moving tasks -/

/-- C4: for every task store, every status and every taskId that is not the id of
any task in the store, `moveTask` leaves the store unchanged: the same tasks, with
the same fields, in the same order. -/
theorem moveTask_unknown_id (tasks : List Task) (taskId newStatus : String)
    (h : ∀ t ∈ tasks, t.id ≠ taskId) : moveTask taskId newStatus tasks = tasks := by
  unfold moveTask
  conv_rhs => rw [← List.map_id tasks]
  apply List.map_congr_left
  intro t ht
  simp [h t ht]

/-- Evaluation of `moveTask_unknown_id` on a store of two tasks. -/
theorem moveTask_unknown_id_witness :
    (∀ t ∈ demoStore, t.id ≠ "no-such-task") ∧
    moveTask "no-such-task" "done" demoStore = demoStore :=
  ⟨by decide, moveTask_unknown_id demoStore "no-such-task" "done" (by decide)⟩

/-- C5: when the store contains a task `t` with status "todo" whose id no other
task shares, `t` is listed under "todo" and after `moveTask t.id "done"` the "todo" listing
holds no task with the id of `t`, the "done" listing holds `t` with only its status changed, and every
other task of the store is unchanged and in place. -/
theorem moveTask_todo_to_done (tasks : List Task) (t : Task) (ht : t ∈ tasks)
    (hs : t.status = "todo") (huniq : ∀ u ∈ tasks, u.id = t.id → u = t) :
    t ∈ getTasksByStatus tasks "todo" ∧
    (∀ u ∈ getTasksByStatus (moveTask t.id "done" tasks) "todo", u.id ≠ t.id) ∧
    { t with status := "done" } ∈ getTasksByStatus (moveTask t.id "done" tasks) "done" ∧
    (moveTask t.id "done" tasks).length = tasks.length ∧
    (∀ (i : Nat) (u : Task), tasks[i]? = some u → u ≠ t →
      (moveTask t.id "done" tasks)[i]? = some u) ∧
    (∀ i : Nat, tasks[i]? = some t →
      (moveTask t.id "done" tasks)[i]? = some { t with status := "done" }) := by
  have hne : moveTask t.id "done" tasks ≠ [] := by
    intro h
    have := congrArg List.length h
    rw [moveTask_length] at this
    exact List.ne_nil_of_mem ht (List.length_eq_zero.mp this)
  have hmem : ({ t with status := "done" } : Task) ∈ moveTask t.id "done" tasks := by
    rw [mem_moveTask_iff]
    exact ⟨t, ht, by simp⟩
  refine ⟨?_, ?_, ?_, moveTask_length _ _ _, ?_, ?_⟩
  · unfold getTasksByStatus
    rw [currentTasks_of_ne_nil _ (List.ne_nil_of_mem ht), List.mem_filter]
    exact ⟨ht, by simp [hs]⟩
  · intro u hu hid
    unfold getTasksByStatus at hu
    rw [currentTasks_of_ne_nil _ hne, List.mem_filter, mem_moveTask_iff] at hu
    obtain ⟨⟨v, hv, hvu⟩, hst⟩ := hu
    by_cases hvid : v.id = t.id
    · rw [if_pos hvid] at hvu
      subst hvu
      simp at hst
    · rw [if_neg hvid] at hvu
      subst hvu
      exact hvid hid
  · unfold getTasksByStatus
    rw [currentTasks_of_ne_nil _ hne, List.mem_filter]
    exact ⟨hmem, by simp⟩
  · intro i u hi hut
    rw [moveTask_getElem?, hi]
    have hu : u ∈ tasks := List.getElem?_mem hi
    have hid : u.id ≠ t.id := fun h => hut (huniq u hu h)
    simp [hid]
  · intro i hi
    rw [moveTask_getElem?, hi]
    simp

/-- Evaluation of `moveTask_todo_to_done` on the first task of a store of two. -/
theorem moveTask_todo_to_done_witness :
    newTaskObject 1705000000000 demoInput seedAgents ∈ demoStore ∧
    { newTaskObject 1705000000000 demoInput seedAgents with status := "done" }
      ∈ getTasksByStatus
          (moveTask (newTaskObject 1705000000000 demoInput seedAgents).id "done" demoStore)
          "done" :=
  ⟨by decide,
   (moveTask_todo_to_done demoStore (newTaskObject 1705000000000 demoInput seedAgents)
      (by decide) rfl (by decide)).2.2.1⟩

/-- C6, as stated, fails: `moveTask` with a status that names no column is not a
no-op; it stores that status in the named task. -/
theorem moveTask_stores_any_status :
    (∀ t ∈ demoStore, t.status ∈ validStatuses) ∧
    "archived" ∉ validStatuses ∧
    moveTask "1705000000000" "archived" demoStore ≠ demoStore ∧
    (∃ t ∈ moveTask "1705000000000" "archived" demoStore, t.status ∉ validStatuses) := by
  decide

/-- C6, amended: the status of every task is one of todo, inprogress, review, done
in every store obtained, from a store where this holds (the empty store included),
by creations and by moves whose new status is one of these four; every `onDrop`
is such a move, its status being the id of a column. `moveTask` itself checks
nothing: whatever the new status, the named task is in the store with that status
afterwards. -/
theorem status_invariant (acts : List TaskAction) (start : List Task)
    (hstart : ∀ t ∈ start, t.status ∈ validStatuses)
    (hacts : ∀ a ∈ acts, a.usesColumn = true) :
    (∀ t ∈ runTasks acts start, t.status ∈ validStatuses) ∧
    (∀ c ∈ columns, ∀ (draggedTaskId : String),
      ∀ t ∈ onDrop c draggedTaskId (runTasks acts start), t.status ∈ validStatuses) ∧
    (∀ (taskId newStatus : String), ∀ t ∈ runTasks acts start, t.id = taskId →
      { t with status := newStatus } ∈ moveTask taskId newStatus (runTasks acts start)) := by
  have hrun := runTasks_preserves_statuses acts start hacts hstart
  refine ⟨hrun, ?_, ?_⟩
  · intro c hc draggedTaskId
    have hcol : (TaskAction.move draggedTaskId c.id).usesColumn = true := by
      simp only [TaskAction.usesColumn, decide_eq_true_eq, validStatuses]
      exact List.mem_map_of_mem _ hc
    exact apply_preserves_statuses (.move draggedTaskId c.id) _ hcol hrun
  · intro taskId newStatus t ht hid
    rw [mem_moveTask_iff]
    exact ⟨t, ht, by rw [if_pos hid]⟩

/-- Evaluation of `status_invariant` on a creation followed by a move to "review". -/
theorem status_invariant_witness :
    (∀ t ∈ ([] : List Task), t.status ∈ validStatuses) ∧
    (∀ a ∈ [TaskAction.create 1705000000000 demoInput seedAgents,
            TaskAction.move "1705000000000" "review"], a.usesColumn = true) ∧
    (∀ t ∈ runTasks [TaskAction.create 1705000000000 demoInput seedAgents,
                     TaskAction.move "1705000000000" "review"] [],
      t.status ∈ validStatuses) :=
  ⟨by decide, by decide,
   (status_invariant [TaskAction.create 1705000000000 demoInput seedAgents,
                      TaskAction.move "1705000000000" "review"] []
      (by decide) (by decide)).1⟩

/-! ## Listing by status -/

/-- C7, as stated, fails twice: the "todo" listing of the empty store, which the
empty run reaches, holds a task that is not in the store; and after a creation and
a move to a status that names no column, the task of the store is in none of the
four listings. -/
theorem listings_do_not_partition :
    (runTasks [] [] = [] ∧
      ∃ t ∈ getTasksByStatus (runTasks [] []) "todo", t ∉ runTasks [] []) ∧
    (∃ t ∈ runTasks [.create 1705000000000 demoInput seedAgents,
                     .move "1705000000000" "archived"] [],
      ∀ s ∈ validStatuses,
        t ∉ getTasksByStatus
              (runTasks [.create 1705000000000 demoInput seedAgents,
                         .move "1705000000000" "archived"] []) s) := by
  decide

/-- C7, amended: for every non-empty store reached from the empty store by
creations and by moves to one of the four statuses, the four listings partition
the store: put end to end they are a rearrangement of the store, each listing
holds only tasks of the store that have its status, and every task of the store is
in the listing of exactly one of the four statuses. -/
theorem getTasksByStatus_partition (acts : List TaskAction)
    (hacts : ∀ a ∈ acts, a.usesColumn = true) (hne : runTasks acts [] ≠ []) :
    (getTasksByStatus (runTasks acts []) "todo" ++
      (getTasksByStatus (runTasks acts []) "inprogress" ++
        (getTasksByStatus (runTasks acts []) "review" ++
          getTasksByStatus (runTasks acts []) "done"))).Perm (runTasks acts []) ∧
    (∀ (s : String), ∀ t ∈ getTasksByStatus (runTasks acts []) s,
      t ∈ runTasks acts [] ∧ t.status = s) ∧
    (∀ t ∈ runTasks acts [],
      ∃! s, s ∈ validStatuses ∧ t ∈ getTasksByStatus (runTasks acts []) s) := by
  have hinv : ∀ t ∈ runTasks acts [], t.status ∈ validStatuses :=
    runTasks_preserves_statuses acts [] hacts (by simp)
  have hcur := currentTasks_of_ne_nil _ hne
  refine ⟨?_, ?_, ?_⟩
  · simp only [getTasksByStatus, hcur]
    exact filter_by_status_perm _ hinv
  · intro s t ht
    simp only [getTasksByStatus, hcur, List.mem_filter, decide_eq_true_eq] at ht
    exact ht
  · intro t ht
    refine ⟨t.status, ⟨hinv t ht, ?_⟩, ?_⟩
    · simp only [getTasksByStatus, hcur, List.mem_filter, decide_eq_true_eq]
      exact ⟨ht, trivial⟩
    · intro s hs
      have := hs.2
      simp only [getTasksByStatus, hcur, List.mem_filter, decide_eq_true_eq] at this
      exact this.2.symm

/-- Evaluation of `getTasksByStatus_partition` on a creation followed by a move. -/
theorem getTasksByStatus_partition_witness :
    (∀ a ∈ [TaskAction.create 1705000000000 demoInput seedAgents,
            TaskAction.move "1705000000000" "review"], a.usesColumn = true) ∧
    runTasks [TaskAction.create 1705000000000 demoInput seedAgents,
              TaskAction.move "1705000000000" "review"] [] ≠ [] ∧
    (∀ (s : String),
      ∀ t ∈ getTasksByStatus
          (runTasks [TaskAction.create 1705000000000 demoInput seedAgents,
                     TaskAction.move "1705000000000" "review"] []) s,
        t ∈ runTasks [TaskAction.create 1705000000000 demoInput seedAgents,
                      TaskAction.move "1705000000000" "review"] [] ∧ t.status = s) :=
  ⟨by decide, by decide,
   (getTasksByStatus_partition [TaskAction.create 1705000000000 demoInput seedAgents,
                                TaskAction.move "1705000000000" "review"]
      (by decide) (by decide)).2.1⟩

/-- C8: for every non-empty store and every status `s`, `getTasksByStatus` is
exactly the tasks of the store whose status is `s`, in the order of the store;
`moveTask` changes neither the position nor any field but the status of any task;
so in every non-empty store reached by creations and moves, the ids of a listing
follow the order in which the tasks were created. -/
theorem getTasksByStatus_insertion_order (tasks : List Task) (s taskId newStatus : String)
    (acts : List TaskAction) :
    (tasks ≠ [] →
      getTasksByStatus tasks s = tasks.filter (fun t => decide (t.status = s)) ∧
      (getTasksByStatus tasks s).Sublist tasks) ∧
    ((moveTask taskId newStatus tasks).map (fun t => { t with status := "" })
      = tasks.map (fun t => { t with status := "" })) ∧
    (runTasks acts [] ≠ [] →
      (runTasks acts []).map Task.id = (creationTimes acts).map toString ∧
      ((getTasksByStatus (runTasks acts []) s).map Task.id).Sublist
        ((creationTimes acts).map toString)) := by
  refine ⟨?_, moveTask_erase_status taskId newStatus tasks, ?_⟩
  · intro hne
    simp only [getTasksByStatus, currentTasks_of_ne_nil _ hne]
    exact ⟨trivial, List.filter_sublist _⟩
  · intro hne
    have hids := runTasks_map_id acts []
    simp only [List.map_nil, List.nil_append] at hids
    refine ⟨hids, ?_⟩
    rw [← hids]
    simp only [getTasksByStatus, currentTasks_of_ne_nil _ hne]
    exact (List.filter_sublist _).map Task.id

/-- Evaluation of `getTasksByStatus_insertion_order` on a store of two tasks, the
first of which was moved to "done" and back to "todo". -/
theorem getTasksByStatus_insertion_order_witness :
    demoStore ≠ [] ∧
    runTasks [.create 1705000000000 demoInput seedAgents,
              .create 1705000000001 demoInput seedAgents,
              .move "1705000000000" "done",
              .move "1705000000000" "todo"] [] ≠ [] ∧
    (getTasksByStatus demoStore "todo").Sublist demoStore ∧
    ((getTasksByStatus
        (runTasks [.create 1705000000000 demoInput seedAgents,
                   .create 1705000000001 demoInput seedAgents,
                   .move "1705000000000" "done",
                   .move "1705000000000" "todo"] []) "todo").map Task.id).Sublist
      ((creationTimes [.create 1705000000000 demoInput seedAgents,
                       .create 1705000000001 demoInput seedAgents,
                       .move "1705000000000" "done",
                       .move "1705000000000" "todo"]).map toString) :=
  ⟨by decide, by decide,
   ((getTasksByStatus_insertion_order demoStore "todo" "1705000000000" "done" []).1
      (by decide)).2,
   ((getTasksByStatus_insertion_order demoStore "todo" "1705000000000" "done"
      [.create 1705000000000 demoInput seedAgents,
       .create 1705000000001 demoInput seedAgents,
       .move "1705000000000" "done",
       .move "1705000000000" "todo"]).2.2 (by decide)).2⟩

/-! ## Agent registry -/

/-- C9: for every registry and every agentId, `toggleAgent` returns a registry of
the same length and order in which each agent with that id has its active flag
negated and keeps its id, name, role and avatar, and every other agent is
unchanged; when no agent has that id the registry is unchanged; the task store is
not touched, so every listing by status is the same before and after. -/
theorem toggleAgent_flips_only_active {Message : Type} (agentId : String) (h : Home Message) :
    (Home.toggleAgent agentId h).agents.length = h.agents.length ∧
    (∀ (i : Nat) (a : Agent), h.agents[i]? = some a →
      ∃ b, (Home.toggleAgent agentId h).agents[i]? = some b ∧
        b.id = a.id ∧ b.name = a.name ∧ b.role = a.role ∧ b.avatar = a.avatar ∧
        (a.id = agentId → b.active = !a.active) ∧ (a.id ≠ agentId → b = a)) ∧
    ((∀ a ∈ h.agents, a.id ≠ agentId) → (Home.toggleAgent agentId h).agents = h.agents) ∧
    (Home.toggleAgent agentId h).tasks = h.tasks ∧
    (Home.toggleAgent agentId h).messages = h.messages ∧
    (∀ s, getTasksByStatus (Home.toggleAgent agentId h).tasks s = getTasksByStatus h.tasks s) := by
  refine ⟨by simp [Home.toggleAgent, toggleAgent], ?_, ?_, rfl, rfl, fun _ => rfl⟩
  · intro i a hi
    refine ⟨if a.id = agentId then { a with active := !a.active } else a, ?_, ?_⟩
    · simp only [Home.toggleAgent]
      rw [toggleAgent_getElem?, hi]
      rfl
    · by_cases hid : a.id = agentId <;> simp [hid]
  · intro hnone
    simp only [Home.toggleAgent, toggleAgent]
    conv_rhs => rw [← List.map_id h.agents]
    apply List.map_congr_left
    intro a ha
    simp [hnone a ha]

/-- Evaluation of `toggleAgent_flips_only_active`: deactivating "pm" in the seeded
registry, and toggling an id no agent has, with a task assigned to "pm" in the
store. -/
theorem toggleAgent_flips_only_active_witness :
    seedAgents[0]? =
      some { id := "pm", name := "Product Manager", role := "PM Agent", active := true,
             avatar := "👨‍💼" } ∧
    (∃ b, (Home.toggleAgent "pm"
            ({ messages := [], agents := seedAgents, tasks := demoStore } : Home Unit)).agents[0]?
          = some b ∧ b.id = "pm" ∧ b.active = false) ∧
    (∀ a ∈ seedAgents, a.id ≠ "qa") ∧
    (Home.toggleAgent "qa"
        ({ messages := [], agents := seedAgents, tasks := demoStore } : Home Unit)).agents
      = seedAgents :=
  ⟨by decide,
   (match (toggleAgent_flips_only_active "pm"
        ({ messages := [], agents := seedAgents, tasks := demoStore } : Home Unit)).2.1 0
        { id := "pm", name := "Product Manager", role := "PM Agent", active := true,
          avatar := "👨‍💼" } (by decide) with
    | ⟨b, hb, hid, _, _, _, hact, _⟩ => ⟨b, hb, hid, by rw [hact rfl]; rfl⟩),
   by decide,
   (toggleAgent_flips_only_active "qa"
      ({ messages := [], agents := seedAgents, tasks := demoStore } : Home Unit)).2.2.1
      (by decide)⟩

/-- C10: for every registry and every agentId, known or unknown, applying
`toggleAgent` twice with that id gives back the original registry, so the active
value of every agent is restored; the same holds for the state of `Home`. -/
theorem toggleAgent_twice {Message : Type} (agentId : String) (registry : List Agent)
    (h : Home Message) :
    toggleAgent agentId (toggleAgent agentId registry) = registry ∧
    (toggleAgent agentId (toggleAgent agentId registry)).map Agent.active
      = registry.map Agent.active ∧
    Home.toggleAgent agentId (Home.toggleAgent agentId h) = h := by
  refine ⟨toggleAgent_involutive agentId registry, ?_, ?_⟩
  · rw [toggleAgent_involutive]
  · cases h with
    | mk messages agents tasks =>
      simp [Home.toggleAgent, toggleAgent_involutive]

/-! ## Conversation log -/

theorem dropWhile_reverse_dropWhile_eq_nil (p : Char → Bool) (l : List Char) :
    ((l.dropWhile p).reverse.dropWhile p).reverse = [] ↔ ∀ ch ∈ l, p ch = true := by
  rw [List.reverse_eq_nil_iff, List.dropWhile_eq_nil_iff]
  constructor
  · intro h
    have hnil : l.dropWhile p = [] := by
      by_contra hne
      have hhead := List.head_dropWhile_not p l hne
      have := h _ (List.mem_reverse.mpr (List.head_mem hne))
      rw [this] at hhead
      exact absurd hhead (by decide)
    exact List.dropWhile_eq_nil_iff.mp hnil
  · intro h x hx
    have hnil : l.dropWhile p = [] := List.dropWhile_eq_nil_iff.mpr h
    rw [hnil] at hx
    simp at hx

theorem jsTrim_eq_empty_iff (s : String) :
    jsTrim s = "" ↔ ∀ ch ∈ s.data, isJsWhiteSpace ch = true := by
  rw [← dropWhile_reverse_dropWhile_eq_nil isJsWhiteSpace s.data]
  unfold jsTrim
  constructor
  · intro h
    exact congrArg String.data h
  · intro h
    rw [h]

theorem handleSendMessage_messages (c : SendClock) (st : ChatState)
    (h : jsTrim st.inputMessage ≠ "") :
    (handleSendMessage c st).messages = st.messages ++ [userMessage c st.inputMessage] := by
  unfold handleSendMessage
  rw [if_neg h]
  cases socketOpen st.socket <;> simp

theorem onmessage_appends (parse : String → Option Json) (data : String) (prev : List Json) :
    onmessage parse data prev = prev ∨
      ∃ response, parse data = some response ∧ onmessage parse data prev = prev ++ [response] := by
  unfold onmessage
  cases h : onmessageTry parse data prev with
  | error e => exact Or.inl rfl
  | ok log =>
    unfold onmessageTry at h
    split at h
    · cases h
    · rename_i response hp
      split at h
      · cases h
      · split at h
        · cases h
          exact Or.inr ⟨response, hp, rfl⟩
        · cases h
          exact Or.inl rfl
      · cases h
        exact Or.inl rfl

theorem apply_appends (parse : String → Option Json) (e : ChatEvent) (st : ChatState) :
    ∃ added, (e.apply parse st).messages = st.messages ++ added ∧ added.length ≤ 1 := by
  cases e with
  | typed text => exact ⟨[], by simp [ChatEvent.apply], by simp⟩
  | submit c =>
    by_cases h : jsTrim st.inputMessage = ""
    · exact ⟨[], by simp [ChatEvent.apply, handleSendMessage, h], by simp⟩
    · exact ⟨[userMessage c st.inputMessage],
        by simp [ChatEvent.apply, handleSendMessage_messages c st h], by simp⟩
  | timer i =>
    cases ht : st.timers[i]? with
    | none => exact ⟨[], by simp [ChatEvent.apply, fireTimer, ht], by simp⟩
    | some t => exact ⟨[t.response], by simp [ChatEvent.apply, fireTimer, ht], by simp⟩
  | frame data =>
    rcases onmessage_appends parse data st.messages with h | ⟨response, _, h⟩
    · exact ⟨[], by simp [ChatEvent.apply, h], by simp⟩
    · exact ⟨[response], by simp [ChatEvent.apply, h], by simp⟩
  | socketState socket => exact ⟨[], by simp [ChatEvent.apply], by simp⟩
  | registry agents => exact ⟨[], by simp [ChatEvent.apply], by simp⟩

theorem runChat_appends (parse : String → Option Json) (events : List ChatEvent) :
    ∀ st : ChatState, ∃ added, (runChat parse events st).messages = st.messages ++ added := by
  induction events with
  | nil => intro st; exact ⟨[], by simp [runChat]⟩
  | cons e events ih =>
    intro st
    obtain ⟨a1, h1, _⟩ := apply_appends parse e st
    obtain ⟨a2, h2⟩ := ih (e.apply parse st)
    refine ⟨a1 ++ a2, ?_⟩
    have hrun : runChat parse (e :: events) st = runChat parse events (e.apply parse st) := rfl
    rw [hrun, h2, h1, List.append_assoc]

/-- C11: for every conversation log and every input text, `handleSendMessage`
changes nothing when the text is empty or made of white space only, and otherwise
makes the log exactly one message longer, the new last message having type "user",
sender "You" and the input text, untrimmed, as content. -/
theorem handleSendMessage_appendUser (c : SendClock) (st : ChatState) :
    ((∀ ch ∈ st.inputMessage.data, isJsWhiteSpace ch = true) → handleSendMessage c st = st) ∧
    (¬ (∀ ch ∈ st.inputMessage.data, isJsWhiteSpace ch = true) →
      ∃ m, (handleSendMessage c st).messages = st.messages ++ [m] ∧
        (handleSendMessage c st).messages.length = st.messages.length + 1 ∧
        m.prop "type" = .ok (some (.str "user")) ∧
        m.prop "sender" = .ok (some (.str "You")) ∧
        m.prop "content" = .ok (some (.str st.inputMessage))) := by
  constructor
  · intro h
    have ht := (jsTrim_eq_empty_iff st.inputMessage).mpr h
    simp [handleSendMessage, ht]
  · intro h
    have ht : jsTrim st.inputMessage ≠ "" := fun hh => h ((jsTrim_eq_empty_iff _).mp hh)
    refine ⟨userMessage c st.inputMessage, handleSendMessage_messages c st ht, ?_, rfl, rfl, rfl⟩
    rw [handleSendMessage_messages c st ht]
    simp

/-- Evaluation of `handleSendMessage_appendUser` on three spaces and on "hello". -/
theorem handleSendMessage_appendUser_witness :
    handleSendMessage (demoClock 1705000000000) { initialChat with inputMessage := "   " }
      = { initialChat with inputMessage := "   " } ∧
    (handleSendMessage (demoClock 1705000000000)
        { initialChat with inputMessage := "hello" }).messages.length = 1 :=
  ⟨(handleSendMessage_appendUser (demoClock 1705000000000)
      { initialChat with inputMessage := "   " }).1 (by decide),
   (match (handleSendMessage_appendUser (demoClock 1705000000000)
      { initialChat with inputMessage := "hello" }).2 (by decide) with
    | ⟨_, _, hlen, _⟩ => hlen)⟩

/-- C12: the conversation log is append-only. For every event that can change it
(a submission, a pending reply whose timer fires, an inbound frame, and the events
that do not touch it) the log after the event is the log before it followed by at
most one new message, and after any sequence of events it is the log before
followed by the new messages: nothing is edited, reordered or removed. -/
theorem log_append_only (parse : String → Option Json) (e : ChatEvent)
    (events : List ChatEvent) (st : ChatState) :
    (∃ added, (e.apply parse st).messages = st.messages ++ added ∧ added.length ≤ 1) ∧
    (∃ added, (runChat parse events st).messages = st.messages ++ added) ∧
    (∀ (i : Nat) (m : Json), st.messages[i]? = some m →
      (runChat parse events st).messages[i]? = some m) := by
  refine ⟨apply_appends parse e st, runChat_appends parse events st, ?_⟩
  intro i m hi
  obtain ⟨added, h⟩ := runChat_appends parse events st
  rw [h]
  have hlt : i < st.messages.length := by
    by_contra hge
    rw [List.getElem?_eq_none (by omega)] at hi
    exact absurd hi (by simp)
  rw [List.getElem?_append_left hlt]
  exact hi

/-! ## Response simulator and transport -/

theorem chatRound_quiet (c : SendClock) (text : String) (st : ChatState)
    (htimers : st.timers = []) (hsock : socketOpen st.socket = false)
    (hblank : jsTrim text ≠ "") (h01 : c.setAt 0 ≤ c.setAt 1) (h12 : c.setAt 1 ≤ c.setAt 2) :
    chatRound c text st =
      { st with messages := st.messages ++ userMessage c text :: responses c text,
                inputMessage := "", timers := [] } := by
  have m1 : min (min (c.setAt 0 + 1500) (c.setAt 1 + 3000)) (c.setAt 2 + 4500)
      = c.setAt 0 + 1500 := by omega
  have m2 : min (c.setAt 1 + 3000) (c.setAt 2 + 4500) = c.setAt 1 + 3000 := by omega
  simp [chatRound, handleSendMessage, hblank, hsock, htimers, simulateAgentResponses,
    responses, List.enum, List.enumFrom, fireNext, fireTimer, leastDue, Timer.due, m1, m2,
    List.findIdx_cons]

/-- C13 fails on the code at this input: with the agent "pm" deactivated and the
socket not open, a submission still sets the timer of the reply of "pm", at delay
1500, and the replies of "tech" and "market" at delays 3000 and 4500; the
simulator never reads the registry. -/
theorem simulator_replies_for_inactive_agent :
    (∀ a ∈ toggleAgent "pm" seedAgents, a.id = "pm" → a.active = false) ∧
    (handleSendMessage (demoClock 1705000000000)
        { initialChat with agents := toggleAgent "pm" seedAgents,
                           inputMessage := "build an AI tool" }).timers.map
      (fun t => (t.delay, t.response.prop "agentId"))
      = [(1500, .ok (some (.str "pm"))), (3000, .ok (some (.str "tech"))),
         (4500, .ok (some (.str "market")))] ∧
    (∀ (c : SendClock) (st : ChatState) (agents : List Agent),
      (handleSendMessage c { st with agents := agents }).timers
        = (handleSendMessage c st).timers) := by
  refine ⟨by decide, ?_, ?_⟩
  · have hb : jsTrim "build an AI tool" ≠ "" := by decide
    simp [handleSendMessage, hb, initialChat, socketOpen, simulateAgentResponses, responses,
      List.enum, List.enumFrom, Json.prop]
  · intro c st agents
    unfold handleSendMessage
    by_cases hb : jsTrim st.inputMessage = ""
    · simp [hb]
    · cases hs : socketOpen st.socket <;> simp [hb, hs]

/-- C14: with the five seeded agents all active, an empty log and the socket not
open, submitting a non-blank text appends one user message at once and sets three
timers, at the delays 1500, 3000 and 4500; when they run in the order they are due
the log is the user message followed by the replies of pm, tech and market, each of
type "agent" with the name and avatar of the registry agent of that id. -/
theorem offline_submission_scenario (c : SendClock) (text : String) (socket : Option Nat)
    (hblank : jsTrim text ≠ "") (hsock : socketOpen socket = false)
    (h01 : c.setAt 0 ≤ c.setAt 1) (h12 : c.setAt 1 ≤ c.setAt 2) :
    (∀ a ∈ initialChat.agents, a.active = true) ∧
    initialChat.agents.map Agent.id = ["pm", "tech", "market", "pitch", "sprint"] ∧
    (handleSendMessage c { initialChat with socket := socket, inputMessage := text }).messages
      = [userMessage c text] ∧
    (handleSendMessage c { initialChat with socket := socket, inputMessage := text }).sent = [] ∧
    (handleSendMessage c
        { initialChat with socket := socket, inputMessage := text }).timers.map Timer.delay
      = [1500, 3000, 4500] ∧
    (chatRound c text { initialChat with socket := socket }).timers = [] ∧
    ∃ pm tech market,
      (chatRound c text { initialChat with socket := socket }).messages
        = [userMessage c text, pm, tech, market] ∧
      taggedAs initialChat.agents "pm" pm ∧
      taggedAs initialChat.agents "tech" tech ∧
      taggedAs initialChat.agents "market" market := by
  have hround := chatRound_quiet c text { initialChat with socket := socket } rfl hsock hblank
    h01 h12
  refine ⟨by decide, by decide, ?_, ?_, ?_, ?_, ?_⟩
  · rw [handleSendMessage_messages c _ hblank]
    rfl
  · simp [handleSendMessage, hblank, hsock, initialChat]
  · simp [handleSendMessage, hblank, hsock, initialChat, simulateAgentResponses, responses,
      List.enum, List.enumFrom]
  · rw [hround]
  · rw [hround]
    refine ⟨_, _, _, rfl, ?_, ?_, ?_⟩
    · exact ⟨rfl, rfl,
        { id := "pm", name := "Product Manager", role := "PM Agent", active := true,
          avatar := "👨‍💼" }, by decide, rfl, rfl⟩
    · exact ⟨rfl, rfl,
        { id := "tech", name := "Tech Architect", role := "Technical Architect", active := true,
          avatar := "👨‍💻" }, by decide, rfl, rfl⟩
    · exact ⟨rfl, rfl,
        { id := "market", name := "Market Analyst", role := "Market Analyst", active := true,
          avatar := "📊" }, by decide, rfl, rfl⟩

/-- Evaluation of `offline_submission_scenario` on the text "build an AI tool". -/
theorem offline_submission_scenario_witness :
    jsTrim "build an AI tool" ≠ "" ∧ socketOpen none = false ∧
    (handleSendMessage (demoClock 1705000000000)
        { initialChat with socket := none,
                           inputMessage := "build an AI tool" }).timers.map Timer.delay
      = [1500, 3000, 4500] :=
  ⟨by decide, rfl,
   (offline_submission_scenario (demoClock 1705000000000) "build an AI tool" none
      (by decide) rfl (Nat.le_refl _) (Nat.le_refl _)).2.2.2.2.1⟩

/-- C15: after a non-blank submission exactly one of two paths is taken, the user
message being appended on both. When the socket is present and open, the frame of
type "user_message" with the raw input text and the ids of the agents with
active = true, in registry order, is sent, and no timer is set; otherwise nothing
is sent and the timers of the simulator, called with the raw input text, are set. -/
theorem handleSendMessage_one_path (c : SendClock) (st : ChatState)
    (hblank : jsTrim st.inputMessage ≠ "") :
    (handleSendMessage c st).messages = st.messages ++ [userMessage c st.inputMessage] ∧
    (st.socket = some WebSocket.OPEN →
      (handleSendMessage c st).sent =
        st.sent ++ [.obj [("type", .str "user_message"), ("message", .str st.inputMessage),
          ("agents",
            .arr (((st.agents.filter (fun a => a.active)).map Agent.id).map .str))]] ∧
      (handleSendMessage c st).timers = st.timers) ∧
    (st.socket ≠ some WebSocket.OPEN →
      (handleSendMessage c st).sent = st.sent ∧
      (handleSendMessage c st).timers = st.timers ++ simulateAgentResponses c st.inputMessage) := by
  refine ⟨handleSendMessage_messages c st hblank, ?_, ?_⟩
  · intro hopen
    have hs : socketOpen st.socket = true := by simp [socketOpen, hopen]
    simp [handleSendMessage, hblank, hs, outboundFrame]
  · intro hclosed
    have hs : socketOpen st.socket = false := by
      cases hsock : st.socket with
      | none => rfl
      | some r =>
        have : r ≠ WebSocket.OPEN := fun h => hclosed (by rw [hsock, h])
        simp [socketOpen, this]
    simp [handleSendMessage, hblank, hs]

/-- Evaluation of `handleSendMessage_one_path`: with the socket open and "pitch"
deactivated, and with no socket. -/
theorem handleSendMessage_one_path_witness :
    jsTrim "build an AI tool" ≠ "" ∧
    (handleSendMessage (demoClock 1705000000000)
        { initialChat with agents := toggleAgent "pitch" seedAgents,
                           socket := some WebSocket.OPEN,
                           inputMessage := "build an AI tool" }).timers = [] ∧
    (handleSendMessage (demoClock 1705000000000)
        { initialChat with inputMessage := "build an AI tool" }).sent = [] :=
  ⟨by decide,
   ((handleSendMessage_one_path (demoClock 1705000000000)
      { initialChat with agents := toggleAgent "pitch" seedAgents,
                         socket := some WebSocket.OPEN,
                         inputMessage := "build an AI tool" } (by decide)).2.1 rfl).2,
   ((handleSendMessage_one_path (demoClock 1705000000000)
      { initialChat with inputMessage := "build an AI tool" } (by decide)).2.2
      (by decide)).1⟩

/-- C16: for every inbound frame and every log, when the frame parses to a value
whose type is "agent" (then an object) the log becomes the old log followed by
that value as parsed; when it parses to a value with another type or none, or does
not parse, the log is unchanged; whatever the `try` block throws is caught, the log
staying as it was. -/
theorem onmessage_frame (parse : String → Option Json) (data : String) (prev : List Json) :
    (∀ response, parse data = some response →
      response.prop "type" = .ok (some (.str "agent")) →
        onmessage parse data prev = prev ++ [response] ∧ ∃ fields, response = .obj fields) ∧
    (∀ response, parse data = some response →
      response.prop "type" ≠ .ok (some (.str "agent")) → onmessage parse data prev = prev) ∧
    (parse data = none → onmessage parse data prev = prev) ∧
    (∀ e, onmessageTry parse data prev = .error e → onmessage parse data prev = prev) := by
  refine ⟨?_, ?_, ?_, ?_⟩
  · intro response hp htype
    constructor
    · simp [onmessage, onmessageTry, hp, htype]
    · cases response with
      | obj fields => exact ⟨fields, rfl⟩
      | null => simp [Json.prop] at htype
      | bool b => simp [Json.prop] at htype
      | num n => simp [Json.prop] at htype
      | str t => simp [Json.prop] at htype
      | arr items => simp [Json.prop] at htype
  · intro response hp htype
    rcases onmessage_appends parse data prev with h | ⟨r, hr, h⟩
    · exact h
    · exfalso
      rw [hp] at hr
      cases hr
      apply htype
      unfold onmessage onmessageTry at h
      simp only [hp] at h
      split at h
      · rename_i log hlog
        split at hlog
        · cases hlog
        · rename_i t hprop
          split at hlog
          · rename_i ht
            rw [hprop, ht]
          · cases hlog
            have := congrArg List.length h
            simp at this
        · cases hlog
          have := congrArg List.length h
          simp at this
      · have := congrArg List.length h
        simp at this
  · intro hp
    simp [onmessage, onmessageTry, hp]
  · intro e he
    simp [onmessage, he]

/-- Evaluation of `onmessage_frame` on a frame of type "agent", on the frame
`null` and on a malformed frame. -/
theorem onmessage_frame_witness :
    onmessage demoParse demoFrameText [userMessage (demoClock 1705000000000) "hello"]
      = [userMessage (demoClock 1705000000000) "hello"] ++ [demoFrame] ∧
    onmessage demoParse "null" [userMessage (demoClock 1705000000000) "hello"]
      = [userMessage (demoClock 1705000000000) "hello"] ∧
    onmessage demoParse "\x7btype:" [userMessage (demoClock 1705000000000) "hello"]
      = [userMessage (demoClock 1705000000000) "hello"] :=
  ⟨((onmessage_frame demoParse demoFrameText
      [userMessage (demoClock 1705000000000) "hello"]).1 demoFrame
      (by simp [demoParse]) rfl).1,
   (onmessage_frame demoParse "null"
      [userMessage (demoClock 1705000000000) "hello"]).2.1 Json.null
      (by simp [demoParse, demoFrameText]) (by simp [Json.prop]),
   (onmessage_frame demoParse "\x7btype:"
      [userMessage (demoClock 1705000000000) "hello"]).2.2.1
      (by simp [demoParse, demoFrameText])⟩

/-! ## Message ids -/

theorem runRounds_ids (rounds : List (SendClock × String)) :
    ∀ (st : ChatState) (ids : List Int) (since : Nat),
      st.timers = [] → socketOpen st.socket = false →
      st.messages.map Json.idNumber = ids.map some →
      ids.Pairwise (fun a b => a < b) → (∀ i ∈ ids, i < (since : Int)) →
      roundsSpaced since rounds →
      ∃ ids' : List Int,
        (runRounds rounds st).messages.map Json.idNumber = ids'.map some ∧
        ids'.Pairwise (fun a b => a < b) := by
  induction rounds with
  | nil => intro st ids since _ _ hids hpw _ _; exact ⟨ids, hids, hpw⟩
  | cons r rounds ih =>
    intro st ids since htimers hsock hids hpw hlt hsp
    obtain ⟨c, text⟩ := r
    obtain ⟨hsince, ⟨hu, hp, ht, h01, h12⟩, hblank, hrest⟩ := hsp
    have hround := chatRound_quiet c text st htimers hsock hblank h01 h12
    have hrun : runRounds ((c, text) :: rounds) st = runRounds rounds (chatRound c text st) := rfl
    rw [hrun, hround]
    refine ih _ (ids ++ [(c.userNow : Int), (c.pmNow : Int) + 1, (c.techNow : Int) + 2,
      (c.marketNow : Int) + 3]) (c.marketNow + 4) rfl hsock ?_ ?_ ?_ hrest
    · simp only [List.map_append, hids]
      rfl
    · rw [List.pairwise_append]
      refine ⟨hpw, ?_, ?_⟩
      · simp only [List.pairwise_cons, List.mem_cons, List.mem_singleton, List.not_mem_nil,
          List.Pairwise.nil, and_true, forall_eq_or_imp, forall_eq, false_implies,
          implies_true]
        omega
      · intro a ha b hb
        have := hlt a ha
        simp only [List.mem_cons, List.mem_singleton, List.not_mem_nil, or_false] at hb
        rcases hb with hb | hb | hb | hb <;> omega
    · intro i hi
      rw [List.mem_append] at hi
      rcases hi with hi | hi
      · have := hlt i hi
        push_cast
        omega
      · simp only [List.mem_cons, List.mem_singleton, List.not_mem_nil, or_false] at hi
        push_cast
        rcases hi with hi | hi | hi | hi <;> omega

theorem eraseIdx_perm {α : Type} :
    ∀ (l : List α) (i : Nat) (x : α), l[i]? = some x → (x :: l.eraseIdx i).Perm l := by
  intro l
  induction l with
  | nil => intro i x h; simp at h
  | cons a l ih =>
    intro i x h
    cases i with
    | zero =>
      simp only [List.getElem?_cons_zero, Option.some.injEq] at h
      rw [h]
      exact List.Perm.refl _
    | succ i =>
      simp only [List.getElem?_cons_succ] at h
      exact (List.Perm.swap a x _).trans (List.Perm.cons a (ih i x h))

theorem fireTimer_perm (i : Nat) (st : ChatState) :
    (fireTimer i st).allMessages.Perm st.allMessages := by
  unfold fireTimer
  cases h : st.timers[i]? with
  | none => exact List.Perm.refl _
  | some t =>
    simp only [ChatState.allMessages, List.append_assoc, List.singleton_append]
    refine List.Perm.append_left _ ?_
    have hp := (eraseIdx_perm st.timers i t h).map Timer.response
    simpa using hp

theorem idsBelow_mono (lo hi : Nat) (hle : lo ≤ hi) (l : List Json) (h : idsBelow lo l) :
    idsBelow hi l := by
  intro m hm
  obtain ⟨n, hn, hlt⟩ := h m hm
  exact ⟨n, hn, by omega⟩

theorem ids_extend (old added : List Json) (since next : Nat) (hle : since ≤ next)
    (hb : idsBelow since old) (hn : (old.map Json.idNumber).Nodup)
    (ha : ∀ m ∈ added, ∃ n : Int, m.idNumber = some n ∧ (since : Int) ≤ n ∧ n < (next : Int))
    (han : (added.map Json.idNumber).Nodup) :
    idsBelow next (old ++ added) ∧ ((old ++ added).map Json.idNumber).Nodup := by
  constructor
  · intro m hm
    rcases List.mem_append.mp hm with hm | hm
    · exact idsBelow_mono since next hle old hb m hm
    · obtain ⟨n, h1, _, h3⟩ := ha m hm
      exact ⟨n, h1, h3⟩
  · rw [List.map_append, List.nodup_append]
    refine ⟨hn, han, ?_⟩
    intro o ho ho2
    obtain ⟨m, hm, hmo⟩ := List.mem_map.mp ho
    obtain ⟨m2, hm2, hmo2⟩ := List.mem_map.mp ho2
    obtain ⟨n, h1, h2⟩ := hb m hm
    obtain ⟨n2, h3, h4, _⟩ := ha m2 hm2
    rw [h1] at hmo
    rw [h3] at hmo2
    rw [← hmo] at hmo2
    have : n2 = n := Option.some.inj hmo2
    omega

theorem submit_keeps_ids (c : SendClock) (st : ChatState) (since : Nat)
    (hs : since ≤ c.userNow) (h1 : c.userNow ≤ c.pmNow) (h2 : c.pmNow ≤ c.techNow)
    (h3 : c.techNow ≤ c.marketNow)
    (hb : idsBelow since st.allMessages) (hn : (st.allMessages.map Json.idNumber).Nodup) :
    idsBelow (c.marketNow + 4) (handleSendMessage c st).allMessages ∧
    ((handleSendMessage c st).allMessages.map Json.idNumber).Nodup := by
  have hu : (userMessage c st.inputMessage).idNumber = some (c.userNow : Int) := rfl
  by_cases hblank : jsTrim st.inputMessage = ""
  · have hsame : handleSendMessage c st = st := by simp [handleSendMessage, hblank]
    rw [hsame]
    exact ⟨idsBelow_mono since _ (by omega) _ hb, hn⟩
  · cases hopen : socketOpen st.socket with
    | true =>
      have hperm : (handleSendMessage c st).allMessages.Perm
          (st.allMessages ++ [userMessage c st.inputMessage]) := by
        simp only [handleSendMessage, if_neg hblank, hopen, if_true, ChatState.allMessages,
          List.append_assoc, List.singleton_append]
        exact List.Perm.append_left _ (List.perm_append_singleton _ _).symm
      have hext := ids_extend st.allMessages [userMessage c st.inputMessage] since
        (c.marketNow + 4) (by omega) hb hn
        (by
          intro m hm
          rw [List.mem_singleton] at hm
          rw [hm]
          exact ⟨c.userNow, hu, by omega, by omega⟩)
        (by simp)
      exact ⟨fun m hm => hext.1 m (hperm.mem_iff.mp hm),
        ((hperm.map Json.idNumber).nodup_iff).mpr hext.2⟩
    | false =>
      have hresp : (simulateAgentResponses c st.inputMessage).map Timer.response
          = responses c st.inputMessage := rfl
      have hperm : (handleSendMessage c st).allMessages.Perm
          (st.allMessages ++ userMessage c st.inputMessage :: responses c st.inputMessage) := by
        simp only [handleSendMessage, if_neg hblank, hopen, Bool.false_eq_true, if_false,
          ChatState.allMessages, List.append_assoc, List.singleton_append, List.map_append,
          hresp]
        exact List.Perm.append_left _ List.perm_middle.symm
      have hext := ids_extend st.allMessages
        (userMessage c st.inputMessage :: responses c st.inputMessage) since
        (c.marketNow + 4) (by omega) hb hn
        (by
          intro m hm
          simp only [responses, List.mem_cons, List.mem_singleton, List.not_mem_nil,
            or_false] at hm
          rcases hm with hm | hm | hm | hm
          · rw [hm]; exact ⟨c.userNow, hu, by omega, by omega⟩
          · rw [hm]; exact ⟨(c.pmNow : Int) + 1, rfl, by omega, by omega⟩
          · rw [hm]; exact ⟨(c.techNow : Int) + 2, rfl, by omega, by omega⟩
          · rw [hm]; exact ⟨(c.marketNow : Int) + 3, rfl, by omega, by omega⟩)
        (by
          have e0 : (userMessage c st.inputMessage).idNumber = some (c.userNow : Int) := rfl
          have e : (responses c st.inputMessage).map Json.idNumber
              = [some ((c.pmNow : Int) + 1), some ((c.techNow : Int) + 2),
                 some ((c.marketNow : Int) + 3)] := rfl
          rw [List.map_cons, e0, e]
          simp only [List.nodup_cons, List.mem_cons, List.mem_singleton, List.not_mem_nil,
            Option.some.injEq, not_false_eq_true, List.nodup_nil, and_true, or_false, not_or]
          omega)
      exact ⟨fun m hm => hext.1 m (hperm.mem_iff.mp hm),
        ((hperm.map Json.idNumber).nodup_iff).mpr hext.2⟩

theorem runChat_cons (parse : String → Option Json) (e : ChatEvent) (events : List ChatEvent)
    (st : ChatState) :
    runChat parse (e :: events) st = runChat parse events (e.apply parse st) := rfl

theorem runChat_ids (parse : String → Option Json) (events : List ChatEvent) :
    ∀ (st : ChatState) (since : Nat), eventsSpaced since events →
      idsBelow since st.allMessages → (st.allMessages.map Json.idNumber).Nodup →
      ∃ next, idsBelow next (runChat parse events st).allMessages ∧
        ((runChat parse events st).allMessages.map Json.idNumber).Nodup := by
  induction events with
  | nil => intro st since _ hb hn; exact ⟨since, hb, hn⟩
  | cons e events ih =>
    intro st since hsp hb hn
    rw [runChat_cons]
    cases e with
    | typed text =>
      simp only [eventsSpaced] at hsp
      exact ih _ since hsp hb hn
    | submit c =>
      simp only [eventsSpaced] at hsp
      obtain ⟨hs, h1, h2, h3, hrest⟩ := hsp
      obtain ⟨hb2, hn2⟩ := submit_keeps_ids c st since hs h1 h2 h3 hb hn
      exact ih _ (c.marketNow + 4) hrest hb2 hn2
    | timer i =>
      simp only [eventsSpaced] at hsp
      have hperm := fireTimer_perm i st
      exact ih _ since hsp (fun m hm => hb m (hperm.mem_iff.mp hm))
        (((hperm.map Json.idNumber).nodup_iff).mpr hn)
    | frame data =>
      simp only [eventsSpaced] at hsp
    | socketState socket =>
      simp only [eventsSpaced] at hsp
      exact ih _ since hsp hb hn
    | registry agents =>
      simp only [eventsSpaced] at hsp
      exact ih _ since hsp hb hn

theorem exists_ids_of_all_some (l : List Json)
    (h : ∀ m ∈ l, ∃ n : Int, m.idNumber = some n) :
    ∃ ids : List Int, l.map Json.idNumber = ids.map some := by
  induction l with
  | nil => exact ⟨[], rfl⟩
  | cons m l ih =>
    obtain ⟨n, hn⟩ := h m (List.mem_cons_self m l)
    obtain ⟨ids, hids⟩ := ih (fun x hx => h x (List.mem_cons_of_mem m hx))
    exact ⟨n :: ids, by simp [hn, hids]⟩

/-- C17, as stated, fails. A second submission made before the first reply of the
first one is appended puts the smaller id of that reply after the larger id of the
second user message; and a second submission one millisecond after the first gets
the id that the first reply of the first submission already has. Both runs have
non-decreasing clock readings. -/
theorem reply_ids_out_of_order :
    (runChat (fun _ => none)
        [.typed "first idea", .submit (demoClock 1705000000000),
         .typed "second idea", .submit (demoClock 1705000001000),
         .timer 0] initialChat).messages.map Json.idNumber
      = [some 1705000000000, some 1705000001000, some 1705000000001] ∧
    (runChat (fun _ => none)
        [.typed "first idea", .submit (demoClock 1705000000000),
         .typed "second idea", .submit (demoClock 1705000000001),
         .timer 0] initialChat).messages.map Json.idNumber
      = [some 1705000000000, some 1705000000001, some 1705000000001] := by
  decide

/-- C17, amended: start from the empty log. Under user submissions in either
transport state and simulated replies appended in any order, interleaved with the
submissions in any way, at id readings that never go back and with each submission
read more than 3 ms after the last reading of the one before, every message of the
log has a number as id and any two messages have different ids. When moreover the
socket is not open and each non-blank submission is followed by its three replies,
appended in the order they are due, before the next submission, a message that
comes later in the log has a larger id than every message before it. -/
theorem spaced_ids_unique_and_increasing (parse : String → Option Json)
    (events : List ChatEvent) (start : Option Nat) (rounds : List (SendClock × String))
    (socket : Option Nat) (hev : eventsSpaced 0 events) (hsock : socketOpen socket = false)
    (h : roundsSpaced 0 rounds) :
    (∃ ids : List Int,
      (runChat parse events { initialChat with socket := start }).messages.map Json.idNumber
        = ids.map some ∧
      ids.Nodup) ∧
    (∃ ids : List Int,
      (runRounds rounds { initialChat with socket := socket }).messages.map Json.idNumber
        = ids.map some ∧
      ids.Pairwise (fun a b => a < b) ∧ ids.Nodup) := by
  constructor
  · obtain ⟨next, hb, hn⟩ :=
      runChat_ids parse events { initialChat with socket := start } 0 hev
        (by intro m hm; simp [ChatState.allMessages, initialChat] at hm)
        (by simp [ChatState.allMessages, initialChat])
    have hsome : ∀ m ∈ (runChat parse events { initialChat with socket := start }).messages,
        ∃ n : Int, m.idNumber = some n := by
      intro m hm
      obtain ⟨n, hnm, _⟩ := hb m (List.mem_append_left _ hm)
      exact ⟨n, hnm⟩
    obtain ⟨ids, hids⟩ := exists_ids_of_all_some _ hsome
    refine ⟨ids, hids, ?_⟩
    simp only [ChatState.allMessages, List.map_append] at hn
    have hleft := (List.nodup_append.mp hn).1
    rw [hids] at hleft
    exact List.Nodup.of_map _ hleft
  · obtain ⟨ids, hids, hpw⟩ :=
      runRounds_ids rounds { initialChat with socket := socket } [] 0 rfl hsock rfl
        List.Pairwise.nil (by simp) h
    exact ⟨ids, hids, hpw, hpw.imp (fun hab => ne_of_lt hab)⟩

/-- Evaluation of `spaced_ids_unique_and_increasing`: two submissions one second
apart, the second made before any reply of the first is appended, and two rounds
five seconds apart. -/
theorem spaced_ids_unique_and_increasing_witness :
    eventsSpaced 0
      [.typed "first idea", .submit (demoClock 1705000000000),
       .typed "second idea", .submit (demoClock 1705000001000),
       .timer 0, .timer 2, .timer 0] ∧
    socketOpen none = false ∧
    roundsSpaced 0 [(demoClock 1705000000000, "first idea"),
                    (demoClock 1705000005000, "second idea")] ∧
    (∃ ids : List Int,
      (runChat (fun _ => none)
          [.typed "first idea", .submit (demoClock 1705000000000),
           .typed "second idea", .submit (demoClock 1705000001000),
           .timer 0, .timer 2, .timer 0]
          { initialChat with socket := none }).messages.map Json.idNumber = ids.map some ∧
      ids.Nodup) ∧
    (∃ ids : List Int,
      (runRounds [(demoClock 1705000000000, "first idea"),
                  (demoClock 1705000005000, "second idea")]
          { initialChat with socket := none }).messages.map Json.idNumber = ids.map some ∧
      ids.Pairwise (fun a b => a < b) ∧ ids.Nodup) :=
  ⟨by simp only [eventsSpaced, demoClock]; decide,
   rfl,
   by simp only [roundsSpaced, clockOrdered, demoClock]; decide,
   spaced_ids_unique_and_increasing (fun _ => none)
     [.typed "first idea", .submit (demoClock 1705000000000),
      .typed "second idea", .submit (demoClock 1705000001000),
      .timer 0, .timer 2, .timer 0] none
     [(demoClock 1705000000000, "first idea"), (demoClock 1705000005000, "second idea")]
     none (by simp only [eventsSpaced, demoClock]; decide) rfl
     (by simp only [roundsSpaced, clockOrdered, demoClock]; decide)⟩

/-! ## Assignee lookup and sample tasks -/

theorem find?_id_map_active (agentId : String) (flag : Bool) (agents : List Agent) :
    (agents.map (fun a => { a with active := flag })).find? (fun a => decide (a.id = agentId))
      = (agents.find? (fun a => decide (a.id = agentId))).map
          (fun a => { a with active := flag }) := by
  induction agents with
  | nil => rfl
  | cons a agents ih =>
    by_cases h : a.id = agentId
    · simp [List.find?_cons, h]
    · simp [List.find?_cons, h, ih]

theorem find?_id_toggleAgent (agentId toggled : String) (agents : List Agent) :
    (toggleAgent toggled agents).find? (fun a => decide (a.id = agentId))
      = (agents.find? (fun a => decide (a.id = agentId))).map
          (fun a => if a.id = toggled then { a with active := !a.active } else a) := by
  induction agents with
  | nil => rfl
  | cons a agents ih =>
    have hid : (if a.id = toggled then { a with active := !a.active } else a).id = a.id := by
      split <;> rfl
    have hcons : toggleAgent toggled (a :: agents)
        = (if a.id = toggled then { a with active := !a.active } else a)
            :: toggleAgent toggled agents := rfl
    rw [hcons, List.find?_cons, List.find?_cons, hid]
    by_cases h : a.id = agentId
    · simp only [h, decide_True, Option.map_some']
    · simp only [h, decide_False]
      exact ih

theorem apply_preserves_createdBy (a : TaskAction) (store : List Task)
    (hstore : ∀ t ∈ store, t.createdBy = "You") : ∀ t ∈ a.apply store, t.createdBy = "You" := by
  cases a with
  | create now newTask agents =>
    intro t ht
    simp only [TaskAction.apply, handleCreateTask, List.mem_append, List.mem_singleton] at ht
    rcases ht with ht | ht
    · exact hstore t ht
    · rw [ht]; rfl
  | move taskId newStatus =>
    intro t ht
    simp only [TaskAction.apply] at ht
    rw [mem_moveTask_iff] at ht
    obtain ⟨u, hu, hut⟩ := ht
    by_cases hid : u.id = taskId
    · rw [if_pos hid] at hut
      subst hut
      exact hstore u hu
    · rw [if_neg hid] at hut
      subst hut
      exact hstore u hu

theorem runTasks_createdBy (acts : List TaskAction) :
    ∀ start : List Task, (∀ t ∈ start, t.createdBy = "You") →
      ∀ t ∈ runTasks acts start, t.createdBy = "You" := by
  induction acts with
  | nil => intro start hstart; simpa [runTasks] using hstart
  | cons a acts ih =>
    intro start hstart
    rw [runTasks_cons]
    exact ih (a.apply start) (apply_preserves_createdBy a start hstart)

/-- C18, as stated, fails: for a task assigned to "pm" after "pm" was deactivated,
the lookup returns the avatar of "pm", not the placeholder. -/
theorem getAgentAvatar_inactive_agent :
    (∀ a ∈ toggleAgent "pm" seedAgents, a.id = "pm" → a.active = false) ∧
    getAgentAvatar (toggleAgent "pm" seedAgents) "pm" = "👨‍💼" ∧
    getAgentAvatar (toggleAgent "pm" seedAgents) "pm" ≠ placeholderGlyph := by
  decide

/-- C18, amended: for every registry and every assignee id the lookup returns a
string. It is the placeholder when no agent of the registry has that id, and also
when the first agent with that id has the empty avatar; otherwise it is the avatar
of the first agent with that id, whether that agent is active or not: deactivating
or activating agents does not change what the lookup returns. -/
theorem getAgentAvatar_lookup (agents : List Agent) (agentId : String) :
    ((∀ a ∈ agents, a.id ≠ agentId) → getAgentAvatar agents agentId = placeholderGlyph) ∧
    (∀ a, agents.find? (fun a => decide (a.id = agentId)) = some a → a.avatar ≠ "" →
      getAgentAvatar agents agentId = a.avatar) ∧
    (∀ a, agents.find? (fun a => decide (a.id = agentId)) = some a → a.avatar = "" →
      getAgentAvatar agents agentId = placeholderGlyph) ∧
    (∀ flag : Bool, getAgentAvatar (agents.map (fun a => { a with active := flag })) agentId
      = getAgentAvatar agents agentId) ∧
    (∀ toggled : String, getAgentAvatar (toggleAgent toggled agents) agentId
      = getAgentAvatar agents agentId) := by
  refine ⟨?_, ?_, ?_, ?_, ?_⟩
  · intro h
    have hfind : agents.find? (fun a => decide (a.id = agentId)) = none := by
      rw [List.find?_eq_none]
      intro a ha
      simpa using h a ha
    simp [getAgentAvatar, hfind]
  · intro a ha hav
    simp [getAgentAvatar, ha, hav]
  · intro a ha hav
    simp [getAgentAvatar, ha, hav]
  · intro flag
    unfold getAgentAvatar
    rw [find?_id_map_active]
    cases agents.find? (fun a => decide (a.id = agentId)) <;> rfl
  · intro toggled
    unfold getAgentAvatar
    rw [find?_id_toggleAgent]
    cases agents.find? (fun a => decide (a.id = agentId)) with
    | none => rfl
    | some a =>
      by_cases ht : a.id = toggled
      · simp only [Option.map_some', if_pos ht]
      · simp only [Option.map_some', if_neg ht]

/-- Evaluation of `getAgentAvatar_lookup` on an id the seeded registry does not
have and on the id of the deactivated agent "pm". -/
theorem getAgentAvatar_lookup_witness :
    (∀ a ∈ seedAgents, a.id ≠ "qa") ∧
    getAgentAvatar seedAgents "qa" = placeholderGlyph ∧
    getAgentAvatar (toggleAgent "pm" seedAgents) "pm" = "👨‍💼" :=
  ⟨by decide,
   (getAgentAvatar_lookup seedAgents "qa").1 (by decide),
   (getAgentAvatar_lookup (toggleAgent "pm" seedAgents) "pm").2.1
     { id := "pm", name := "Product Manager", role := "PM Agent", active := false,
       avatar := "👨‍💼" } (by decide) (by decide)⟩

/-- C19: when the store is empty the four listings are the four sample tasks, one
in each column; `moveTask` with any id and any status keeps the store empty and
every listing the same; for a non-empty store every listing holds tasks of the
store only, and in a non-empty store built by creations and moves no listed task is
a sample task. -/
theorem sample_tasks_fallback (taskId newStatus : String) (tasks : List Task)
    (acts : List TaskAction) :
    getTasksByStatus [] "todo" ++ getTasksByStatus [] "inprogress" ++
      getTasksByStatus [] "review" ++ getTasksByStatus [] "done" = sampleTasks ∧
    (∀ c ∈ columns, (getTasksByStatus [] c.id).length = 1) ∧
    moveTask taskId newStatus [] = [] ∧
    (∀ s, getTasksByStatus (moveTask taskId newStatus []) s = getTasksByStatus [] s) ∧
    (∀ c ∈ columns, ∀ s, getTasksByStatus (onDrop c taskId []) s = getTasksByStatus [] s) ∧
    (tasks ≠ [] → ∀ s, ∀ t ∈ getTasksByStatus tasks s, t ∈ tasks) ∧
    (runTasks acts [] ≠ [] →
      ∀ s, ∀ t ∈ getTasksByStatus (runTasks acts []) s, t ∉ sampleTasks) := by
  refine ⟨by decide, by decide, rfl, fun _ => rfl, fun _ _ _ => rfl, ?_, ?_⟩
  · intro hne s t ht
    simp only [getTasksByStatus, currentTasks_of_ne_nil _ hne, List.mem_filter] at ht
    exact ht.1
  · intro hne s t ht hsample
    simp only [getTasksByStatus, currentTasks_of_ne_nil _ hne, List.mem_filter] at ht
    have hby := runTasks_createdBy acts [] (by simp) t ht.1
    have hno : ∀ u ∈ sampleTasks, u.createdBy ≠ "You" := by decide
    exact hno t hsample hby

/-- Evaluation of `sample_tasks_fallback` on a store of two created tasks. -/
theorem sample_tasks_fallback_witness :
    demoStore ≠ [] ∧
    (∀ s, ∀ t ∈ getTasksByStatus demoStore s, t ∈ demoStore) ∧
    (∀ s, ∀ t ∈ getTasksByStatus
        (runTasks [.create 1705000000000 demoInput seedAgents, .move "1" "done"] []) s,
      t ∉ sampleTasks) :=
  ⟨by decide,
   (sample_tasks_fallback "1" "done" demoStore []).2.2.2.2.2.1 (by decide),
   (sample_tasks_fallback "1" "done" []
      [.create 1705000000000 demoInput seedAgents, .move "1" "done"]).2.2.2.2.2.2
      (by decide)⟩

end TeamStrategyAgent
